import Mathlib

/-!
# Verification of the Mediasoup ORTC negotiation engine (`src/ortc.ts`)

This file gives a shallow embedding of the RTP-capability negotiation code in
`src/ortc.ts` and proves properties of it.

Two layers are modelled:

* a *raw* layer (`JSVal`, `RawCodec`, …) embedding the dynamically-typed
  JavaScript values seen by the in-place validators
  (`validateRtpCapabilities`, `validateRtpCodecCapability`, …).  The source
  mutates its argument; the embedding returns the normalized value instead
  (`Except` models `throw`).
* a *typed* layer (`CodecCap`, `CodecParams`, …) embedding the algorithmic
  functions (`generateRouterRtpCapabilities`, `getProducerRtpParametersMapping`,
  `getConsumableRtpParameters`, `canConsume`, `getConsumerRtpParameters`,
  `getPipeConsumerRtpParameters`) over well-typed structures.  Optional TS
  fields become `Option`; the TS non-null assertion `x!` followed by a member
  access, which crashes with a `TypeError` on `undefined`, is modelled by
  `bangOpt`.

External dependencies of the source that are not part of this repository
(the h264 profile functions and the scalability-mode parser) are modelled as
explicit parameters, respectively from the spec.  The random SSRC source is
passed in as an explicit integer argument, as the spec's design notes suggest.
-/

/-- A JavaScript runtime value, as far as the validators of `ortc.ts`
inspect one.  Numbers are modelled as integers (no claim depends on
non-integral or NaN behaviour). -/
inductive JSVal where
  | undefined : JSVal
  | null : JSVal
  | bool : Bool → JSVal
  | num : Int → JSVal
  | str : String → JSVal
  | arr : List JSVal → JSVal
  | obj : List (String × JSVal) → JSVal

/-- JavaScript truthiness of a value. -/
def truthy : JSVal → Bool
  | .undefined => false
  | .null => false
  | .bool b => b
  | .num n => !(n == 0)
  | .str s => !(s == "")
  | .arr _ => true
  | .obj _ => true

/-- The JavaScript `typeof` operator. -/
def typeofJS : JSVal → String
  | .undefined => "undefined"
  | .null => "object"
  | .bool _ => "boolean"
  | .num _ => "number"
  | .str _ => "string"
  | .arr _ => "object"
  | .obj _ => "object"

def isNumV : JSVal → Bool
  | .num _ => true
  | _ => false

def isStrV : JSVal → Bool
  | .str _ => true
  | _ => false

def isArrV : JSVal → Bool
  | .arr _ => true
  | _ => false

/-- Property read on an object's field list (absent key = `undefined`). -/
def getField : List (String × JSVal) → String → Option JSVal
  | [], _ => none
  | (k', v') :: rest, k => if k' == k then some v' else getField rest k

/-- Property write on an object's field list: existing keys keep their
position (as in JavaScript), new keys are appended. -/
def setField : List (String × JSVal) → String → JSVal → List (String × JSVal)
  | [], k, v => [(k, v)]
  | (k', v') :: rest, k, v =>
    if k' == k then (k', v) :: rest else (k', v') :: setField rest k v

/-- Result of matching a mime type against `^(audio|video)/(.+)` with the
`i` flag and lowercasing capture 1 (`ortc.ts` lines 800-818).  `.` in the
regex does not match line terminators, hence the check on the first
character after the slash. -/
def mimeTypeKind (s : String) : Option String :=
  match s.toList.map Char.toLower with
  | 'a' :: 'u' :: 'd' :: 'i' :: 'o' :: '/' :: c :: _ =>
    if c == '\n' || c == '\r' || c == '\u2028' || c == '\u2029' then none
    else some "audio"
  | 'v' :: 'i' :: 'd' :: 'e' :: 'o' :: '/' :: c :: _ =>
    if c == '\n' || c == '\r' || c == '\u2028' || c == '\u2029' then none
    else some "video"
  | _ => none

/-- A raw `RtpCodecCapability` value: a JavaScript object with the schema's
fields, each holding an arbitrary runtime value (`undefined` = absent).
Non-object codec values always fail validation (`typeof codec !== 'object'`
at line 802, or property access throwing) and are outside this model. -/
structure RawCodec where
  mimeType : JSVal
  preferredPayloadType : JSVal
  clockRate : JSVal
  channels : JSVal
  parameters : JSVal
  rtcpFeedback : JSVal
  kind : JSVal

/-- A raw `RtpHeaderExtension` value (same conventions as `RawCodec`). -/
structure RawExt where
  kind : JSVal
  uri : JSVal
  preferredId : JSVal
  preferredEncrypt : JSVal
  direction : JSVal

/-- A field that the source expects to hold an array (`caps.codecs`,
`caps.headerExtensions`): either falsy (replaced by `[]`), a truthy
non-array (a `TypeError`), or an actual array of elements. -/
inductive RawField (α : Type) where
  | missingF : RawField α
  | notArrayF : RawField α
  | arrF : List α → RawField α

/-- A raw `RtpCapabilities` value.  Non-object capability values fail
validation (line 42) and are outside this model. -/
structure RawCaps where
  codecs : RawField RawCodec
  headerExtensions : RawField RawExt

/-- `validateRtcpFeedback` (`ortc.ts` lines 884-898), returning the
normalized value.  A non-object argument throws at the `typeof` check; an
array or `null` passes `typeof` but then fails on the `fb.type` read. -/
def validateRtcpFeedbackRaw (fb : JSVal) : Except String JSVal :=
  match fb with
  | .obj fs =>
    let t := (getField fs "type").getD .undefined
    if !(truthy t) || !(isStrV t) then .error "missing fb.type"
    else
      let p := (getField fs "parameter").getD .undefined
      if !(truthy p) || !(isStrV p) then .ok (.obj (setField fs "parameter" (.str "")))
      else .ok (.obj fs)
  | .arr _ => .error "missing fb.type"
  | .null => .error "cannot read properties of null"
  | _ => .error "fb is not an object"

/-- The per-key body of the `codec.parameters` loop (`ortc.ts` lines
847-867): `undefined` values are coerced to `''`, values must be strings or
numbers, and `apt` must be a number. -/
def validateParamEntriesRaw : List (String × JSVal) → Except String (List (String × JSVal))
  | [] => .ok []
  | (k, .undefined) :: rest =>
    if k == "apt" then .error "invalid codec apt parameter"
    else
      match validateParamEntriesRaw rest with
      | .error e => .error e
      | .ok r => .ok ((k, .str "") :: r)
  | (k, .str s) :: rest =>
    if k == "apt" then .error "invalid codec apt parameter"
    else
      match validateParamEntriesRaw rest with
      | .error e => .error e
      | .ok r => .ok ((k, .str s) :: r)
  | (k, .num n) :: rest =>
    match validateParamEntriesRaw rest with
    | .error e => .error e
    | .ok r => .ok ((k, .num n) :: r)
  | (_, _) :: _ => .error "invalid codec parameter"

/-- The same loop when `codec.parameters` is an array (its `Object.keys`
are the indices, so `apt` can never occur). -/
def validateParamArrRaw : List JSVal → Except String (List JSVal)
  | [] => .ok []
  | .undefined :: rest =>
    match validateParamArrRaw rest with
    | .error e => .error e
    | .ok r => .ok (.str "" :: r)
  | .str s :: rest =>
    match validateParamArrRaw rest with
    | .error e => .error e
    | .ok r => .ok (.str s :: r)
  | .num n :: rest =>
    match validateParamArrRaw rest with
    | .error e => .error e
    | .ok r => .ok (.num n :: r)
  | _ :: _ => .error "invalid codec parameter"

/-- `codec.parameters` handling (`ortc.ts` lines 843-867): a falsy or
non-object value is replaced by `{}` (the truthy values of `typeof`
`'object'` are exactly the `obj` and `arr` constructors — `null` is falsy);
otherwise every key is validated. -/
def validateParametersRaw : JSVal → Except String JSVal
  | .obj fs =>
    match validateParamEntriesRaw fs with
    | .error e => .error e
    | .ok fs' => .ok (.obj fs')
  | .arr xs =>
    match validateParamArrRaw xs with
    | .error e => .error e
    | .ok xs' => .ok (.arr xs')
  | _ => .ok (.obj [])

def validateFbEntriesRaw : List JSVal → Except String (List JSVal)
  | [] => .ok []
  | fb :: rest =>
    match validateRtcpFeedbackRaw fb with
    | .error e => .error e
    | .ok fb' =>
      match validateFbEntriesRaw rest with
      | .error e => .error e
      | .ok r => .ok (fb' :: r)

/-- `codec.rtcpFeedback` handling (`ortc.ts` lines 869-876): a falsy or
non-array value is replaced by `[]`; otherwise every entry is validated. -/
def validateRtcpFeedbackListRaw (v : JSVal) : Except String JSVal :=
  match v with
  | .arr xs =>
    match validateFbEntriesRaw xs with
    | .error e => .error e
    | .ok ys => .ok (.arr ys)
  | _ => .ok (.arr [])

/-- `validateRtpCodecCapability` (`ortc.ts` lines 799-877), returning the
normalized codec. -/
def validateRtpCodecCapabilityRaw (c : RawCodec) : Except String RawCodec :=
  match c.mimeType with
  | .str s =>
    if s == "" then .error "missing codec.mimeType"
    else
      match mimeTypeKind s with
      | none => .error "invalid codec.mimeType"
      | some kind =>
        if truthy c.preferredPayloadType && !(isNumV c.preferredPayloadType) then
          .error "invalid codec.preferredPayloadType"
        else if !(isNumV c.clockRate) then .error "missing codec.clockRate"
        else
          let channels :=
            if kind == "audio" then
              if isNumV c.channels then c.channels else JSVal.num 1
            else JSVal.undefined
          match validateParametersRaw c.parameters with
          | .error e => .error e
          | .ok ps =>
            match validateRtcpFeedbackListRaw c.rtcpFeedback with
            | .error e => .error e
            | .ok fbs =>
              .ok { c with kind := .str kind, channels := channels,
                           parameters := ps, rtcpFeedback := fbs }
  | _ => .error "missing codec.mimeType"

def isBoolV : JSVal → Bool
  | .bool _ => true
  | _ => false

/-- `ext.kind !== 'audio' && ext.kind !== 'video'` (line 910). -/
def isExtKind : JSVal → Bool
  | .str "audio" => true
  | .str "video" => true
  | _ => false

/-- `validateRtpHeaderExtension` (`ortc.ts` lines 905-937), returning the
normalized extension. -/
def validateRtpHeaderExtensionRaw (e : RawExt) : Except String RawExt :=
  if !(isExtKind e.kind) then .error "invalid ext.kind"
  else
    match e.uri with
    | .str s =>
      if s == "" then .error "missing ext.uri"
      else
        if !(isNumV e.preferredId) then .error "missing ext.preferredId"
        else if truthy e.preferredEncrypt && !(isBoolV e.preferredEncrypt) then
          .error "invalid ext.preferredEncrypt"
        else if truthy e.direction && !(isStrV e.direction) then
          .error "invalid ext.direction"
        else
          .ok { e with
            preferredEncrypt := if truthy e.preferredEncrypt then e.preferredEncrypt else .bool false,
            direction := if truthy e.direction then e.direction else .str "sendrecv" }
    | _ => .error "missing ext.uri"

def validateCodecListRaw : List RawCodec → Except String (List RawCodec)
  | [] => .ok []
  | c :: rest =>
    match validateRtpCodecCapabilityRaw c with
    | .error e => .error e
    | .ok c' =>
      match validateCodecListRaw rest with
      | .error e => .error e
      | .ok r => .ok (c' :: r)

def validateExtListRaw : List RawExt → Except String (List RawExt)
  | [] => .ok []
  | e :: rest =>
    match validateRtpHeaderExtensionRaw e with
    | .error e' => .error e'
    | .ok x =>
      match validateExtListRaw rest with
      | .error e' => .error e'
      | .ok r => .ok (x :: r)

/-- `validateRtpCapabilities` (`ortc.ts` lines 41-67), returning the
normalized capabilities. -/
def validateRtpCapabilitiesRaw (caps : RawCaps) : Except String RawCaps :=
  match caps.codecs with
  | .notArrayF => .error "caps.codecs is not an array"
  | cf =>
    let cs := match cf with
      | .arrF xs => xs
      | _ => []
    match validateCodecListRaw cs with
    | .error e => .error e
    | .ok cs' =>
      match caps.headerExtensions with
      | .notArrayF => .error "caps.headerExtensions is not an array"
      | ef =>
        let es := match ef with
          | .arrF xs => xs
          | _ => []
        match validateExtListRaw es with
        | .error e => .error e
        | .ok es' => .ok ⟨.arrF cs', .arrF es'⟩

/-! ## Typed layer: data model -/

/-- A codec `parameters` value: TS `string | number` (post-validation). -/
inductive ParamV where
  | str : String → ParamV
  | num : Int → ParamV
deriving DecidableEq, Repr

/-- `RtcpFeedback` (post-validation: `parameter` defaults to `""`). -/
structure RtcpFb where
  type : String
  parameter : String
deriving DecidableEq, Repr

/-- `RtpCodecCapability`. -/
structure CodecCap where
  kind : String
  mimeType : String
  preferredPayloadType : Option Int
  clockRate : Int
  channels : Option Int
  parameters : List (String × ParamV)
  rtcpFeedback : List RtcpFb
deriving DecidableEq, Repr

/-- `RtpHeaderExtension`. -/
structure HeaderExt where
  kind : String
  uri : String
  preferredId : Int
  preferredEncrypt : Bool
  direction : String
deriving DecidableEq, Repr

/-- `RtpCapabilities`.  Both container fields are optional in TS; code paths
that dereference them through `!` crash on `undefined` (see `bangOpt`). -/
structure RtpCapabilitiesT where
  codecs : Option (List CodecCap)
  headerExtensions : Option (List HeaderExt)
deriving DecidableEq, Repr

/-- `RtpCodecParameters`.  `payloadType` is `Option Int` because
`getConsumableRtpParameters` copies `preferredPayloadType!` into it, which
is `undefined` when a capability codec carries no preferred payload type. -/
structure CodecParams where
  mimeType : String
  payloadType : Option Int
  clockRate : Int
  channels : Option Int
  parameters : List (String × ParamV)
  rtcpFeedback : List RtcpFb
deriving DecidableEq, Repr

/-- A header extension inside `RtpParameters` (`{uri, id, encrypt, parameters}`). -/
structure HeaderExtParams where
  uri : String
  id : Int
  encrypt : Bool
deriving DecidableEq, Repr

/-- `RtpEncodingParameters`.  `rtx` holds the rtx ssrc when present.
Unmodelled optional fields (`dtx`, `scaleResolutionDownBy`, …) are never
read or written by `ortc.ts` and pass through every function unchanged. -/
structure EncodingT where
  ssrc : Option Int
  rid : Option String
  codecPayloadType : Option Int
  rtx : Option Int
  maxBitrate : Option Int
  scalabilityMode : Option String
deriving DecidableEq, Repr

/-- `RtcpParameters`. -/
structure RtcpT where
  cname : Option String
  reducedSize : Option Bool
deriving DecidableEq, Repr

/-- `RtpParameters`. -/
structure RtpParametersT where
  codecs : List CodecParams
  headerExtensions : Option (List HeaderExtParams)
  encodings : Option (List EncodingT)
  rtcp : Option RtcpT
deriving DecidableEq, Repr

/-- One entry of `RtpMapping.codecs`. -/
structure MappingCodec where
  payloadType : Option Int
  mappedPayloadType : Option Int
deriving DecidableEq, Repr

/-- One entry of `RtpMapping.encodings`. -/
structure MappingEncoding where
  ssrc : Option Int
  rid : Option String
  scalabilityMode : Option String
  mappedSsrc : Int
deriving DecidableEq, Repr

/-- `RtpMapping`. -/
structure RtpMappingT where
  codecs : List MappingCodec
  encodings : List MappingEncoding
deriving DecidableEq, Repr

/-- The error classes thrown by `ortc.ts`: `TypeError`, `UnsupportedError`
(from mediasoup's `errors.ts`), and the plain `Error` thrown only at
dynamic payload-type pool exhaustion (lines 131 and 158) — the kind the
spec names `ResourceExhaustedError`. -/
inductive OrtcError where
  | typeError : String → OrtcError
  | unsupportedError : String → OrtcError
  | resourceError : String → OrtcError
deriving DecidableEq, Repr

/-- The TS non-null assertion `x!` followed by a member access: reading a
member of `undefined` throws a `TypeError` at runtime. -/
def bangOpt {α : Type} : Option α → Except OrtcError α
  | some x => .ok x
  | none => .error (.typeError "cannot read properties of undefined")

/-! ## Typed layer: codec matching -/

/-- The external h264 profile functions (`h264-profile-level-id`, not part
of this repository): `isSameProfile` and
`generateProfileLevelIdStringForAnswer` (which may throw, and may return
`undefined`). -/
structure H264Ops where
  isSameProfile : List (String × ParamV) → List (String × ParamV) → Bool
  answerProfile : List (String × ParamV) → List (String × ParamV) → Except Unit (Option String)

/-- A concrete instantiation of `H264Ops` used to evaluate witnesses on
non-h264 codecs (where the functions are never consulted). -/
def trivialOps : H264Ops :=
  { isSameProfile := fun _ _ => true, answerProfile := fun _ _ => .ok none }

/-- The common projection of `RtpCodecCapability` / `RtpCodecParameters`
that `matchCodecs` inspects. -/
structure MCodec where
  mimeType : String
  clockRate : Int
  channels : Option Int
  parameters : List (String × ParamV)

def CodecCap.toM (c : CodecCap) : MCodec :=
  ⟨c.mimeType, c.clockRate, c.channels, c.parameters⟩

def CodecParams.toM (c : CodecParams) : MCodec :=
  ⟨c.mimeType, c.clockRate, c.channels, c.parameters⟩

def lowerStr (s : String) : String :=
  String.mk (s.toList.map Char.toLower)

def lookupParam : List (String × ParamV) → String → Option ParamV
  | [], _ => none
  | (k', v) :: rest, k => if k' == k then some v else lookupParam rest k

def setParam : List (String × ParamV) → String → ParamV → List (String × ParamV)
  | [], k, v => [(k, v)]
  | (k', v') :: rest, k, v =>
    if k' == k then (k', v) :: rest else (k', v') :: setParam rest k v

def eraseParam : List (String × ParamV) → String → List (String × ParamV)
  | [], _ => []
  | (k', v') :: rest, k =>
    if k' == k then rest else (k', v') :: eraseParam rest k

/-- JavaScript truthiness of a parameter value. -/
def truthyParam : ParamV → Bool
  | .num n => !(n == 0)
  | .str s => !(s == "")

/-- `aCodec.parameters[k] || 0` as used for `packetization-mode` and
`profile-id` (`ortc.ts` lines 743-744, 779-780). -/
def paramOr0 (ps : List (String × ParamV)) (k : String) : ParamV :=
  match lookupParam ps k with
  | some v => if truthyParam v then v else .num 0
  | none => .num 0

/-- `matchCodecs(a, b, {strict, modify})` (`ortc.ts` lines 700-792).
Returns `none` on mismatch, and on match `some ps` where `ps` is `a`'s
parameter set after the h264 `modify` write-back (unchanged in every other
case). -/
def matchCodecs (ops : H264Ops) (strict modify : Bool) (a b : MCodec) :
    Option (List (String × ParamV)) :=
  let aMimeType := lowerStr a.mimeType
  let bMimeType := lowerStr b.mimeType
  if !(aMimeType == bMimeType) then none
  else if !(a.clockRate == b.clockRate) then none
  else if !(a.channels == b.channels) then none
  else if aMimeType == "audio/multiopus" then
    if !(lookupParam a.parameters "num_streams" == lookupParam b.parameters "num_streams") then none
    else if !(lookupParam a.parameters "coupled_streams" == lookupParam b.parameters "coupled_streams") then none
    else some a.parameters
  else if aMimeType == "video/h264" || aMimeType == "video/h264-svc" then
    if strict then
      if !(paramOr0 a.parameters "packetization-mode" == paramOr0 b.parameters "packetization-mode") then none
      else if !(ops.isSameProfile a.parameters b.parameters) then none
      else
        match ops.answerProfile a.parameters b.parameters with
        | .error _ => none
        | .ok sel =>
          if modify then
            match sel with
            | some plid => some (setParam a.parameters "profile-level-id" (.str plid))
            | none => some (eraseParam a.parameters "profile-level-id")
          else some a.parameters
    else some a.parameters
  else if aMimeType == "video/vp9" then
    if strict then
      if !(paramOr0 a.parameters "profile-id" == paramOr0 b.parameters "profile-id") then none
      else some a.parameters
    else some a.parameters
  else some a.parameters

/-- `isRtxCodec` (`ortc.ts` lines 696-698): mimeType matches
`/.+\/rtx$/i`.  The `.` class excludes line terminators, hence the check on
the character right before the `/rtx` suffix. -/
def isRtxMime (s : String) : Bool :=
  match (s.toList.map Char.toLower).reverse with
  | 'x' :: 't' :: 'r' :: '/' :: c :: _ =>
    !(c == '\n' || c == '\r' || c == '\u2028' || c == '\u2029')
  | _ => false

def isRtxCodec (c : CodecCap) : Bool := isRtxMime c.mimeType

def isRtxCodecP (c : CodecParams) : Bool := isRtxMime c.mimeType

/-! ## Typed layer: validators

These are the source validators restricted to well-typed structures: the
checks that can only fail on ill-typed runtime values (covered by the raw
layer above) disappear, the normalizing writes remain. -/

/-- `validateRtcpFeedback` on a typed value: `fb.type` must be a non-empty
string; a falsy `parameter` is (re)set to `""`, a no-op here. -/
def validateRtcpFeedbackT (fb : RtcpFb) : Except OrtcError RtcpFb :=
  if fb.type == "" then .error (.typeError "missing fb.type")
  else .ok fb

def validateFbListT : List RtcpFb → Except OrtcError (List RtcpFb)
  | [] => .ok []
  | fb :: rest =>
    match validateRtcpFeedbackT fb with
    | .error e => .error e
    | .ok fb' =>
      match validateFbListT rest with
      | .error e => .error e
      | .ok r => .ok (fb' :: r)

/-- Does `codec.parameters.apt` exist with a non-number value?  (The only
parameter check that can fail on typed values, lines 862-866.) -/
def aptIsString (ps : List (String × ParamV)) : Bool :=
  match lookupParam ps "apt" with
  | some (.str _) => true
  | _ => false

/-- `validateRtpCodecCapability` on a typed value: checks the mimeType
shape, overrides `kind`, defaults `channels` to 1 for audio and removes it
for video, checks `apt`, validates the feedback list. -/
def validateRtpCodecCapabilityT (codec : CodecCap) : Except OrtcError CodecCap :=
  if codec.mimeType == "" then .error (.typeError "missing codec.mimeType")
  else
    match mimeTypeKind codec.mimeType with
    | none => .error (.typeError "invalid codec.mimeType")
    | some kind =>
      let channels :=
        if kind == "audio" then
          match codec.channels with
          | some n => some n
          | none => some 1
        else none
      if aptIsString codec.parameters then .error (.typeError "invalid codec apt parameter")
      else
        match validateFbListT codec.rtcpFeedback with
        | .error e => .error e
        | .ok fbs =>
          .ok { codec with kind := kind, channels := channels, rtcpFeedback := fbs }

def validateCodecListT : List CodecCap → Except OrtcError (List CodecCap)
  | [] => .ok []
  | c :: rest =>
    match validateRtpCodecCapabilityT c with
    | .error e => .error e
    | .ok c' =>
      match validateCodecListT rest with
      | .error e => .error e
      | .ok r => .ok (c' :: r)

/-- `validateRtpHeaderExtension` on a typed value. -/
def validateRtpHeaderExtensionT (ext : HeaderExt) : Except OrtcError HeaderExt :=
  if !(ext.kind == "audio" || ext.kind == "video") then .error (.typeError "invalid ext.kind")
  else if ext.uri == "" then .error (.typeError "missing ext.uri")
  else .ok { ext with direction := if ext.direction == "" then "sendrecv" else ext.direction }

def validateExtListT : List HeaderExt → Except OrtcError (List HeaderExt)
  | [] => .ok []
  | e :: rest =>
    match validateRtpHeaderExtensionT e with
    | .error er => .error er
    | .ok e' =>
      match validateExtListT rest with
      | .error er => .error er
      | .ok r => .ok (e' :: r)

/-- `validateRtpCapabilities` on a typed value: unset `codecs` /
`headerExtensions` become `[]`, every element is validated. -/
def validateRtpCapabilitiesT (caps : RtpCapabilitiesT) : Except OrtcError RtpCapabilitiesT :=
  match validateCodecListT (caps.codecs.getD []) with
  | .error e => .error e
  | .ok cs =>
    match validateExtListT (caps.headerExtensions.getD []) with
    | .error e => .error e
    | .ok es => .ok ⟨some cs, some es⟩

/-! ## RouterCapabilityBuilder (`generateRouterRtpCapabilities`, lines 73-178)

The source draws the supported table from a static import that is not part
of this repository; following the spec's interface description (§4.3, §6)
the table is an explicit argument here. -/

/-- The fixed dynamic payload-type pool (`ortc.ts` lines 30-34). -/
def DynamicPayloadTypes : List Int :=
  [100, 101, 102, 103, 104, 105, 106, 107, 108, 109, 110, 111, 112, 113, 114,
   115, 116, 117, 118, 119, 120, 121, 122, 123, 124, 125, 126, 127, 96, 97,
   98, 99]

/-- `dynamicPayloadTypes.shift()` followed by the falsy check `if (!pt)`
(lines 128-132 and 155-159): an empty pool — or a popped `0`, which cannot
occur — throws the plain `Error` the spec calls resource exhaustion. -/
def takeDynamicPT : List Int → Except OrtcError (Int × List Int)
  | [] => .error (.resourceError "cannot allocate more dynamic codec payload types")
  | pt :: rest =>
    if pt == 0 then .error (.resourceError "cannot allocate more dynamic codec payload types")
    else .ok (pt, rest)

/-- `{...codec.parameters, ...mediaCodec.parameters}`: keys of the first
object keep their position (values overridden by the second), new keys of
the second are appended. -/
def mergeParameters (a b : List (String × ParamV)) : List (String × ParamV) :=
  a.map (fun kv => match lookupParam b kv.1 with
    | some v => (kv.1, v)
    | none => kv)
  ++ b.filter (fun kv => (lookupParam a kv.1).isNone)

/-- The synthesized RTX codec (lines 161-170).  `codec.preferredPayloadType`
is always assigned by this point (all three branches of lines 110-135 leave
it `some`); the impossible `none` case yields an absent `apt`. -/
def rtxCodecFor (codec : CodecCap) (pt : Int) : CodecCap :=
  { kind := codec.kind
    mimeType := codec.kind ++ "/rtx"
    preferredPayloadType := some pt
    clockRate := codec.clockRate
    channels := none
    parameters := match codec.preferredPayloadType with
      | some p => [("apt", .num p)]
      | none => []
    rtcpFeedback := [] }

/-- The body of the `for (const mediaCodec of mediaCodecs)` loop
(lines 92-175), acting on the state (codecs built so far, remaining dynamic
pool). -/
def addMediaCodec (ops : H264Ops) (supportedCodecs : List CodecCap)
    (st : List CodecCap × List Int) (mediaCodec : CodecCap) :
    Except OrtcError (List CodecCap × List Int) :=
  match validateRtpCodecCapabilityT mediaCodec with
  | .error e => .error e
  | .ok mc =>
    match supportedCodecs.find? (fun s => (matchCodecs ops false false mc.toM s.toM).isSome) with
    | none => .error (.unsupportedError ("media codec not supported [mimeType:" ++ mc.mimeType ++ "]"))
    | some matched =>
      let withPt : Except OrtcError (CodecCap × List Int) :=
        match mc.preferredPayloadType with
        | some p => .ok ({ matched with preferredPayloadType := some p }, st.2.erase p)
        | none =>
          match matched.preferredPayloadType with
          | some _ => .ok (matched, st.2)
          | none =>
            match takeDynamicPT st.2 with
            | .error e => .error e
            | .ok (pt, pool) => .ok ({ matched with preferredPayloadType := some pt }, pool)
      match withPt with
      | .error e => .error e
      | .ok (codec0, pool) =>
        if st.1.any (fun c => c.preferredPayloadType == codec0.preferredPayloadType) then
          .error (.typeError "duplicated codec.preferredPayloadType")
        else
          let codec := { codec0 with parameters := mergeParameters codec0.parameters mc.parameters }
          if codec.kind == "video" then
            match takeDynamicPT pool with
            | .error e => .error e
            | .ok (pt2, pool2) => .ok (st.1 ++ [codec, rtxCodecFor codec pt2], pool2)
          else .ok (st.1 ++ [codec], pool)

def routerCodecsLoop (ops : H264Ops) (supportedCodecs : List CodecCap) :
    List CodecCap → List CodecCap × List Int → Except OrtcError (List CodecCap × List Int)
  | [], st => .ok st
  | mc :: rest, st =>
    match addMediaCodec ops supportedCodecs st mc with
    | .error e => .error e
    | .ok st' => routerCodecsLoop ops supportedCodecs rest st'

/-- `generateRouterRtpCapabilities(mediaCodecs)` with the supported table
explicit.  The table is validated (and thereby normalized) first; the
`Array.isArray(mediaCodecs)` check cannot fail on a typed list. -/
def generateRouterRtpCapabilities (ops : H264Ops) (supported : RtpCapabilitiesT)
    (mediaCodecs : List CodecCap) : Except OrtcError RtpCapabilitiesT :=
  match validateRtpCapabilitiesT supported with
  | .error e => .error e
  | .ok supported' =>
    match routerCodecsLoop ops (supported'.codecs.getD []) mediaCodecs ([], DynamicPayloadTypes) with
    | .error e => .error e
    | .ok st => .ok ⟨some st.1, supported'.headerExtensions⟩

/-! ## ProducerMappingBuilder (`getProducerRtpParametersMapping`, lines 186-285) -/

/-- The JS strict equality `payloadType === parameters.apt` between a
(possibly undefined) number and a (possibly missing) parameter value. -/
def jsEqPtApt (pt : Option Int) (apt : Option ParamV) : Bool :=
  match pt, apt with
  | none, none => true
  | some n, some (.num m) => n == m
  | _, _ => false

/-- `caps.codecs.find(capCodec => matchCodecs(codec, capCodec, {strict: true,
modify: true}))`: returns the first matching capability codec together with
the producer codec updated by the h264 `modify` write-back. -/
def findModify (ops : H264Ops) (codec : CodecParams) :
    List CodecCap → Option (CodecCap × CodecParams)
  | [] => none
  | cap :: rest =>
    match matchCodecs ops true true codec.toM cap.toM with
    | some ps => some (cap, { codec with parameters := ps })
    | none => findModify ops codec rest

/-- First loop of `getProducerRtpParametersMapping` (lines 199-216): match
every non-RTX producer codec against the capability codecs, recording the
`Map` entries as (index, producer codec, capability codec) — the JS `Map`
is keyed by object identity, i.e. by position in `params.codecs`.  Also
returns the producer codec list after the `modify` mutations. -/
def producerMediaLoop (ops : H264Ops) (capsCodecs : List CodecCap) :
    List CodecParams → Nat →
    Except OrtcError (List (Nat × CodecParams × CodecCap) × List CodecParams)
  | [], _ => .ok ([], [])
  | codec :: rest, i =>
    if isRtxCodecP codec then
      match producerMediaLoop ops capsCodecs rest (i + 1) with
      | .error e => .error e
      | .ok (entries, codecs) => .ok (entries, codec :: codecs)
    else
      match findModify ops codec capsCodecs with
      | none => .error (.unsupportedError "unsupported codec")
      | some (cap, codec') =>
        match producerMediaLoop ops capsCodecs rest (i + 1) with
        | .error e => .error e
        | .ok (entries, codecs) => .ok ((i, codec', cap) :: entries, codec' :: codecs)

/-- `params.codecs.find(mediaCodec => mediaCodec.payloadType ===
codec.parameters.apt)`, with the index of the found codec (the `Map` key). -/
def findAssocMedia (apt : Option ParamV) : List CodecParams → Nat → Option (Nat × CodecParams)
  | [], _ => none
  | c :: rest, i =>
    if jsEqPtApt c.payloadType apt then some (i, c)
    else findAssocMedia apt rest (i + 1)

/-- Second loop of `getProducerRtpParametersMapping` (lines 219-253): match
every RTX producer codec to the capability RTX codec paired with its
associated media codec.  A `Map.get` miss makes the following
`capMediaCodec!.preferredPayloadType` read crash with a `TypeError`. -/
def producerRtxLoop (capsCodecs : List CodecCap) (allCodecs : List CodecParams) :
    List CodecParams → Nat → List (Nat × CodecParams × CodecCap) →
    Except OrtcError (List (Nat × CodecParams × CodecCap))
  | [], _, acc => .ok acc
  | codec :: rest, i, acc =>
    if !(isRtxCodecP codec) then producerRtxLoop capsCodecs allCodecs rest (i + 1) acc
    else
      match findAssocMedia (lookupParam codec.parameters "apt") allCodecs 0 with
      | none => .error (.typeError "missing media codec found for RTX PT")
      | some (j, _) =>
        match (acc.find? (fun e => e.1 == j)) with
        | none => .error (.typeError "cannot read properties of undefined")
        | some entry =>
          let capMediaCodec := entry.2.2
          match capsCodecs.find? (fun capCodec =>
              isRtxCodec capCodec &&
              jsEqPtApt capMediaCodec.preferredPayloadType (lookupParam capCodec.parameters "apt")) with
          | none => .error (.unsupportedError "no RTX codec for capability codec PT")
          | some capRtx => producerRtxLoop capsCodecs allCodecs rest (i + 1) (acc ++ [(i, codec, capRtx)])

/-- `if (encoding.rid) …` style truthy copy of an optional string. -/
def optTruthyStr : Option String → Option String
  | some s => if s == "" then none else some s
  | none => none

/-- `if (encoding.ssrc) …` style truthy copy of an optional number. -/
def optTruthyInt : Option Int → Option Int
  | some n => if n == 0 then none else some n
  | none => none

/-- `getProducerRtpParametersMapping(params, caps)`.  `mappedSsrcBase`
stands for the one `generateRandomNumber()` call (line 264).  Returns the
mapping together with `params.codecs` after the in-place `modify`
mutations performed by strict matching. -/
def getProducerRtpParametersMapping (ops : H264Ops) (params : RtpParametersT)
    (caps : RtpCapabilitiesT) (mappedSsrcBase : Int) :
    Except OrtcError (RtpMappingT × List CodecParams) :=
  match bangOpt caps.codecs with
  | .error e => .error e
  | .ok capsCodecs =>
    match producerMediaLoop ops capsCodecs params.codecs 0 with
    | .error e => .error e
    | .ok (entries1, codecs') =>
      match producerRtxLoop capsCodecs codecs' codecs' 0 entries1 with
      | .error e => .error e
      | .ok entries =>
        match bangOpt params.encodings with
        | .error e => .error e
        | .ok encodings =>
          let mappingCodecs := entries.map (fun e =>
            { payloadType := e.2.1.payloadType
              mappedPayloadType := e.2.2.preferredPayloadType : MappingCodec })
          let mappingEncodings := encodings.enum.map (fun ie =>
            { ssrc := optTruthyInt ie.2.ssrc
              rid := optTruthyStr ie.2.rid
              scalabilityMode := optTruthyStr ie.2.scalabilityMode
              mappedSsrc := mappedSsrcBase + (ie.1 : Int) : MappingEncoding })
          .ok (⟨mappingCodecs, mappingEncodings⟩, codecs')

/-! ## ConsumableParametersBuilder (`getConsumableRtpParameters`, lines 291-391) -/

/-- The codec loop of `getConsumableRtpParameters` (lines 304-345): every
non-RTX producer codec is re-pointed at its mapped capability codec
(keeping the producer's parameters), followed by the capability RTX codec
that references it, when one exists.  The two `!` dereferences crash when
the mapping entry or the capability codec is missing. -/
def consumableCodecsLoop (capsCodecs : List CodecCap) (mappingCodecs : List MappingCodec) :
    List CodecParams → Except OrtcError (List CodecParams)
  | [] => .ok []
  | codec :: rest =>
    if isRtxCodecP codec then consumableCodecsLoop capsCodecs mappingCodecs rest
    else
      match mappingCodecs.find? (fun entry => entry.payloadType == codec.payloadType) with
      | none => .error (.typeError "cannot read properties of undefined")
      | some entry =>
        let consumableCodecPt := entry.mappedPayloadType
        match capsCodecs.find? (fun capCodec => capCodec.preferredPayloadType == consumableCodecPt) with
        | none => .error (.typeError "cannot read properties of undefined")
        | some matchedCapCodec =>
          let consumableCodec : CodecParams :=
            { mimeType := matchedCapCodec.mimeType
              payloadType := matchedCapCodec.preferredPayloadType
              clockRate := matchedCapCodec.clockRate
              channels := matchedCapCodec.channels
              parameters := codec.parameters
              rtcpFeedback := matchedCapCodec.rtcpFeedback }
          let rtxPart : List CodecParams :=
            match capsCodecs.find? (fun capRtxCodec =>
                isRtxCodec capRtxCodec &&
                jsEqPtApt consumableCodec.payloadType (lookupParam capRtxCodec.parameters "apt")) with
            | some consumableCapRtxCodec =>
              [{ mimeType := consumableCapRtxCodec.mimeType
                 payloadType := consumableCapRtxCodec.preferredPayloadType
                 clockRate := consumableCapRtxCodec.clockRate
                 channels := none
                 parameters := consumableCapRtxCodec.parameters
                 rtcpFeedback := consumableCapRtxCodec.rtcpFeedback }]
            | none => []
          match consumableCodecsLoop capsCodecs mappingCodecs rest with
          | .error e => .error e
          | .ok tail => .ok (consumableCodec :: rtxPart ++ tail)

/-- The encodings loop of `getConsumableRtpParameters` (lines 366-383):
strip `rid`/`rtx`/`codecPayloadType` and set the mapped ssrc; an index past
the end of `rtpMapping.encodings` crashes on the destructuring read. -/
def consumableEncodingsLoop (mappingEncodings : List MappingEncoding) :
    List EncodingT → Nat → Except OrtcError (List EncodingT)
  | [], _ => .ok []
  | e :: rest, i =>
    match mappingEncodings[i]? with
    | none => .error (.typeError "cannot read properties of undefined")
    | some me =>
      match consumableEncodingsLoop mappingEncodings rest (i + 1) with
      | .error er => .error er
      | .ok r =>
        .ok ({ e with rid := none, rtx := none, codecPayloadType := none,
                      ssrc := some me.mappedSsrc } :: r)

/-- `getConsumableRtpParameters(kind, params, caps, rtpMapping)`. -/
def getConsumableRtpParameters (kind : String) (params : RtpParametersT)
    (caps : RtpCapabilitiesT) (rtpMapping : RtpMappingT) :
    Except OrtcError RtpParametersT :=
  match bangOpt caps.codecs with
  | .error e => .error e
  | .ok capsCodecs =>
    match consumableCodecsLoop capsCodecs rtpMapping.codecs params.codecs with
    | .error e => .error e
    | .ok codecs =>
      match bangOpt caps.headerExtensions with
      | .error e => .error e
      | .ok capExts =>
        let headerExtensions := (capExts.filter (fun capExt =>
            capExt.kind == kind &&
            (capExt.direction == "sendrecv" || capExt.direction == "sendonly"))).map
          (fun capExt =>
            { uri := capExt.uri, id := capExt.preferredId,
              encrypt := capExt.preferredEncrypt : HeaderExtParams })
        match consumableEncodingsLoop rtpMapping.encodings (params.encodings.getD []) 0 with
        | .error e => .error e
        | .ok encodings =>
          match bangOpt params.rtcp with
          | .error e => .error e
          | .ok rtcp =>
            .ok { codecs := codecs
                  headerExtensions := some headerExtensions
                  encodings := some encodings
                  rtcp := some { cname := rtcp.cname, reducedSize := some true } }

/-! ## `canConsume` (lines 396-423) -/

/-- `canConsume(consumableParams, caps)`: validate `caps` (which may throw),
collect the consumable codecs that strict-match some capability codec, and
require the first collected codec to exist and not be RTX. -/
def canConsume (ops : H264Ops) (consumableParams : RtpParametersT)
    (caps : RtpCapabilitiesT) : Except OrtcError Bool :=
  match validateRtpCapabilitiesT caps with
  | .error e => .error e
  | .ok caps' =>
    let matchingCodecs := consumableParams.codecs.filter (fun codec =>
      ((caps'.codecs.getD []).find? (fun capCodec =>
        (matchCodecs ops true false capCodec.toM codec.toM).isSome)).isSome)
    match matchingCodecs with
    | [] => .ok false
    | c :: _ => .ok (!(isRtxCodecP c))

/-! ## ConsumerParametersBuilder (`getConsumerRtpParameters`, lines 432-619) -/

/-- Modelled from the spec: the external scalability-mode parser
(`@mafalda-sfu/scalabilitymodes`, not part of this repository).  Spec §3:
scalabilityMode follows the grammar `L<n>T<m>` (spatial and temporal layer
counts); an absent or unparsable mode yields the default of one spatial and
one temporal layer. -/
def parseScalabilityMode (sm : Option String) : Nat × Nat :=
  match sm with
  | none => (1, 1)
  | some s =>
    match s.toList with
    | 'L' :: rest =>
      let ds := rest.takeWhile Char.isDigit
      let rest' := rest.dropWhile Char.isDigit
      if ds.isEmpty then (1, 1)
      else
        match rest' with
        | 'T' :: rest'' =>
          let ts := rest''.takeWhile Char.isDigit
          let rest3 := rest''.dropWhile Char.isDigit
          if ts.isEmpty || !rest3.isEmpty then (1, 1)
          else (ds.foldl (fun n c => n * 10 + (c.toNat - 48)) 0,
                ts.foldl (fun n c => n * 10 + (c.toNat - 48)) 0)
        | _ => (1, 1)
    | _ => (1, 1)

/-- The codec-matching loop of `getConsumerRtpParameters` (lines 461-479):
drop RTX codecs when `enableRtx` is false, keep codecs matched by a remote
capability codec, and replace their feedback by the remote codec's feedback
filtered by `enableRtx || fb.type !== 'nack' || fb.parameter`. -/
def consumerMatchCodecs (ops : H264Ops) (enableRtx : Bool) (remCodecs : List CodecCap) :
    List CodecParams → List CodecParams
  | [] => []
  | codec :: rest =>
    if !enableRtx && isRtxCodecP codec then consumerMatchCodecs ops enableRtx remCodecs rest
    else
      match remCodecs.find? (fun capCodec =>
          (matchCodecs ops true false capCodec.toM codec.toM).isSome) with
      | none => consumerMatchCodecs ops enableRtx remCodecs rest
      | some matchedCapCodec =>
        { codec with rtcpFeedback := matchedCapCodec.rtcpFeedback.filter (fun fb =>
            enableRtx || !(fb.type == "nack") || !(fb.parameter == "")) }
          :: consumerMatchCodecs ops enableRtx remCodecs rest

/-- The RTX-sanitizing loop (lines 482-497): walk indices from the end,
removing RTX codecs whose associated media codec (searched by `apt` over
the current list) is absent, and record whether any RTX codec survives.
`sanitizeRtxFrom n` processes indices `n-1, n-2, …, 0`. -/
def sanitizeRtxFrom : Nat → List CodecParams × Bool → List CodecParams × Bool
  | 0, st => st
  | n + 1, (codecs, rtxSupported) =>
    let st' :=
      match codecs[n]? with
      | none => (codecs, rtxSupported)
      | some codec =>
        if isRtxCodecP codec then
          match codecs.find? (fun mediaCodec =>
              jsEqPtApt mediaCodec.payloadType (lookupParam codec.parameters "apt")) with
          | some _ => (codecs, true)
          | none => (codecs.eraseIdx n, rtxSupported)
        else (codecs, rtxSupported)
    sanitizeRtxFrom n st'

def transportWideCcUri : String :=
  "http://www.ietf.org/id/draft-holmer-rmcat-transport-wide-cc-extensions-01"

def absSendTimeUri : String :=
  "http://www.webrtc.org/experiments/rtp-hdrext/abs-send-time"

def midUri : String := "urn:ietf:params:rtp-hdrext:sdes:mid"

/-- The congestion-control feedback reduction (lines 514-545). -/
def reduceRtcpFeedback (headerExtensions : List HeaderExtParams)
    (codecs : List CodecParams) : List CodecParams :=
  if headerExtensions.any (fun ext => ext.uri == transportWideCcUri) then
    codecs.map (fun c =>
      { c with rtcpFeedback := c.rtcpFeedback.filter (fun fb => !(fb.type == "goog-remb")) })
  else if headerExtensions.any (fun ext => ext.uri == absSendTimeUri) then
    codecs.map (fun c =>
      { c with rtcpFeedback := c.rtcpFeedback.filter (fun fb => !(fb.type == "transport-cc")) })
  else
    codecs.map (fun c =>
      { c with rtcpFeedback := c.rtcpFeedback.filter (fun fb =>
          !(fb.type == "transport-cc") && !(fb.type == "goog-remb")) })

/-- The single consumer encoding built in the non-pipe branch
(lines 547-594).  `ssrc` stands for the `generateRandomNumber()` call. -/
def consumerEncodingNonPipe (consumableEncodings : List EncodingT)
    (rtxSupported : Bool) (ssrc : Int) : EncodingT :=
  let rtx := if rtxSupported then some (ssrc + 1) else none
  let smOpt :=
    match consumableEncodings.find? (fun e =>
        match e.scalabilityMode with
        | some s => !(s == "")
        | none => false) with
    | some e => e.scalabilityMode
    | none => none
  let scalabilityMode :=
    if consumableEncodings.length > 1 then
      some ("L" ++ toString consumableEncodings.length ++ "T"
            ++ toString (parseScalabilityMode smOpt).2)
    else smOpt
  let smFinal :=
    match scalabilityMode with
    | some s => if s == "" then none else some s
    | none => none
  let maxEncodingMaxBitrate := consumableEncodings.foldl (fun acc e =>
      match e.maxBitrate with
      | some b => if !(b == 0) && b > acc then b else acc
      | none => acc) 0
  { ssrc := some ssrc
    rid := none
    codecPayloadType := none
    rtx := rtx
    maxBitrate := if maxEncodingMaxBitrate == 0 then none else some maxEncodingMaxBitrate
    scalabilityMode := smFinal }

/-- The pipe-branch encodings of `getConsumerRtpParameters`
(lines 595-616): sequential ssrcs from `baseSsrc`, rtx ssrcs from
`baseRtxSsrc` when RTX is supported (otherwise `rtx` is deleted). -/
def consumerEncodingsPipe (rtxSupported : Bool) (baseSsrc baseRtxSsrc : Int) :
    List EncodingT → Nat → List EncodingT
  | [], _ => []
  | e :: rest, i =>
    { e with ssrc := some (baseSsrc + (i : Int)),
             rtx := if rtxSupported then some (baseRtxSsrc + (i : Int)) else none }
      :: consumerEncodingsPipe rtxSupported baseSsrc baseRtxSsrc rest (i + 1)

/-- `getConsumerRtpParameters({consumableRtpParameters, remoteRtpCapabilities,
pipe, enableRtx})`.  `r1` stands for the first `generateRandomNumber()` call
of whichever branch runs (the consumer ssrc, or the pipe `baseSsrc`) and
`r2` for the pipe `baseRtxSsrc`. -/
def getConsumerRtpParameters (ops : H264Ops) (consumableRtpParameters : RtpParametersT)
    (remoteRtpCapabilities : RtpCapabilitiesT) (pipe enableRtx : Bool) (r1 r2 : Int) :
    Except OrtcError RtpParametersT :=
  match bangOpt remoteRtpCapabilities.codecs with
  | .error e => .error e
  | .ok remCodecsRaw =>
    match validateCodecListT remCodecsRaw with
    | .error e => .error e
    | .ok remCodecs =>
      let stage1 := consumerMatchCodecs ops enableRtx remCodecs consumableRtpParameters.codecs
      let sanitized := sanitizeRtxFrom stage1.length (stage1, false)
      let codecs2 := sanitized.1
      let rtxSupported := sanitized.2
      match codecs2 with
      | [] => .error (.unsupportedError "no compatible media codecs")
      | c0 :: _ =>
        if isRtxCodecP c0 then .error (.unsupportedError "no compatible media codecs")
        else
          match bangOpt consumableRtpParameters.headerExtensions with
          | .error e => .error e
          | .ok consExts =>
            match bangOpt remoteRtpCapabilities.headerExtensions with
            | .error e => .error e
            | .ok remExts =>
              let headerExtensions := consExts.filter (fun ext =>
                remExts.any (fun capExt => capExt.preferredId == ext.id && capExt.uri == ext.uri))
              let codecs3 := reduceRtcpFeedback headerExtensions codecs2
              if !pipe then
                match bangOpt consumableRtpParameters.encodings with
                | .error e => .error e
                | .ok consEncodings =>
                  .ok { codecs := codecs3
                        headerExtensions := some headerExtensions
                        encodings := some [consumerEncodingNonPipe consEncodings rtxSupported r1]
                        rtcp := consumableRtpParameters.rtcp }
              else
                let consEncodings := consumableRtpParameters.encodings.getD []
                .ok { codecs := codecs3
                      headerExtensions := some headerExtensions
                      encodings := some (consumerEncodingsPipe rtxSupported r1 r2 consEncodings 0)
                      rtcp := consumableRtpParameters.rtcp }

/-! ## `getPipeConsumerRtpParameters` (lines 627-694) -/

/-- The feedback kept by a pipe consumer (lines 651-656). -/
def pipeFbPred (enableRtx : Bool) (fb : RtcpFb) : Bool :=
  (fb.type == "nack" && fb.parameter == "pli") ||
  (fb.type == "ccm" && fb.parameter == "fir") ||
  (enableRtx && fb.type == "nack" && fb.parameter == "")

/-- The codec loop of `getPipeConsumerRtpParameters` (lines 646-659). -/
def pipeConsumerCodecs (enableRtx : Bool) : List CodecParams → List CodecParams
  | [] => []
  | codec :: rest =>
    if !enableRtx && isRtxCodecP codec then pipeConsumerCodecs enableRtx rest
    else
      { codec with rtcpFeedback := codec.rtcpFeedback.filter (pipeFbPred enableRtx) }
        :: pipeConsumerCodecs enableRtx rest

/-- The encodings loop of `getPipeConsumerRtpParameters` (lines 679-691). -/
def pipeEncodingsLoop (enableRtx : Bool) (baseSsrc baseRtxSsrc : Int) :
    List EncodingT → Nat → List EncodingT
  | [], _ => []
  | e :: rest, i =>
    { e with ssrc := some (baseSsrc + (i : Int)),
             rtx := if enableRtx then some (baseRtxSsrc + (i : Int)) else none }
      :: pipeEncodingsLoop enableRtx baseSsrc baseRtxSsrc rest (i + 1)

/-- `getPipeConsumerRtpParameters({consumableRtpParameters, enableRtx})`.
`baseSsrc`/`baseRtxSsrc` stand for the two `generateRandomNumber()` calls. -/
def getPipeConsumerRtpParameters (consumableRtpParameters : RtpParametersT)
    (enableRtx : Bool) (baseSsrc baseRtxSsrc : Int) : Except OrtcError RtpParametersT :=
  let codecs := pipeConsumerCodecs enableRtx consumableRtpParameters.codecs
  match bangOpt consumableRtpParameters.headerExtensions with
  | .error e => .error e
  | .ok consExts =>
    let headerExtensions := consExts.filter (fun ext =>
      !(ext.uri == midUri) && !(ext.uri == absSendTimeUri) && !(ext.uri == transportWideCcUri))
    let consEncodings := consumableRtpParameters.encodings.getD []
    .ok { codecs := codecs
          headerExtensions := some headerExtensions
          encodings := some (pipeEncodingsLoop enableRtx baseSsrc baseRtxSsrc consEncodings 0)
          rtcp := consumableRtpParameters.rtcp }

/-! ## Concrete instances used by the verification below -/

/-- A `video/VP8` supported-table codec with no preferred payload type. -/
def vp8Sup : CodecCap :=
  { kind := "video", mimeType := "video/VP8", preferredPayloadType := none,
    clockRate := 90000, channels := none, parameters := [], rtcpFeedback := [] }

/-- A supported-capability table containing only `vp8Sup`. -/
def supportedVp8 : RtpCapabilitiesT := ⟨some [vp8Sup], some []⟩

/-- A requested `video/VP8` media codec (clockRate 90000). -/
def vp8Req : CodecCap :=
  { kind := "video", mimeType := "video/VP8", preferredPayloadType := none,
    clockRate := 90000, channels := none, parameters := [], rtcpFeedback := [] }

/-- `vp8Sup` with preferred payload type 100 — a value inside the dynamic
payload-type pool. -/
def vp8SupPt100 : CodecCap := { vp8Sup with preferredPayloadType := some 100 }

def supportedVp8Pt100 : RtpCapabilitiesT := ⟨some [vp8SupPt100], some []⟩

/-- The codec list produced for `supportedVp8Pt100`: the VP8 codec and its
synthesized RTX codec both end up with payload type 100. -/
def routerDupCodecs : List CodecCap :=
  [{ kind := "video", mimeType := "video/VP8", preferredPayloadType := some 100,
     clockRate := 90000, channels := none, parameters := [], rtcpFeedback := [] },
   { kind := "video", mimeType := "video/rtx", preferredPayloadType := some 100,
     clockRate := 90000, channels := none, parameters := [("apt", .num 100)],
     rtcpFeedback := [] }]

/-- The router capabilities generated for `supportedVp8` and `[vp8Req]`. -/
def routerCapsVp8 : RtpCapabilitiesT :=
  ⟨some
    [{ kind := "video", mimeType := "video/VP8", preferredPayloadType := some 100,
       clockRate := 90000, channels := none, parameters := [], rtcpFeedback := [] },
     { kind := "video", mimeType := "video/rtx", preferredPayloadType := some 101,
       clockRate := 90000, channels := none, parameters := [("apt", .num 100)],
       rtcpFeedback := [] }], some []⟩

/-- An encoding with every optional field unset. -/
def emptyEncoding : EncodingT :=
  { ssrc := none, rid := none, codecPayloadType := none, rtx := none,
    maxBitrate := none, scalabilityMode := none }

/-- A producer `video/VP8` codec (payload type 96). -/
def producerVp8Codec : CodecParams :=
  { mimeType := "video/VP8", payloadType := some 96, clockRate := 90000,
    channels := none, parameters := [], rtcpFeedback := [] }

/-- Producer parameters used as the mapping round-trip witness. -/
def producerParamsW : RtpParametersT :=
  { codecs := [producerVp8Codec], headerExtensions := some [],
    encodings := some [emptyEncoding], rtcp := some ⟨some "w", none⟩ }

/-- A consumable `video/VP8` codec (payload type 100). -/
def consVp8Codec : CodecParams :=
  { mimeType := "video/VP8", payloadType := some 100, clockRate := 90000,
    channels := none, parameters := [], rtcpFeedback := [] }

/-- A simulcast encoding with scalability mode `L1T3` and a declared
`maxBitrate` of 0 (a falsy number). -/
def encL1T3Zero : EncodingT :=
  { ssrc := none, rid := none, codecPayloadType := none, rtx := none,
    maxBitrate := some 0, scalabilityMode := some "L1T3" }

/-- Consumable parameters with two `L1T3` encodings both declaring
`maxBitrate` 0. -/
def consumableL1T3Zero : RtpParametersT :=
  { codecs := [consVp8Codec], headerExtensions := some [],
    encodings := some [encL1T3Zero, encL1T3Zero], rtcp := some ⟨some "c5", some true⟩ }

def encL1T3Five : EncodingT := { encL1T3Zero with maxBitrate := some 5 }

def encL1T3Three : EncodingT := { encL1T3Zero with maxBitrate := some 3 }

/-- Consumable parameters with two `L1T3` encodings declaring positive
maxBitrates 5 and 3. -/
def consumableL1T3Pos : RtpParametersT :=
  { consumableL1T3Zero with encodings := some [encL1T3Five, encL1T3Three] }

/-- A consumable RTX codec (apt 96). -/
def rtxConsCodec : CodecParams :=
  { mimeType := "video/rtx", payloadType := some 97, clockRate := 90000,
    channels := none, parameters := [("apt", .num 96)],
    rtcpFeedback := [⟨"nack", ""⟩] }

/-- Consumable parameters whose only codec is an RTX codec. -/
def consumableRtxOnly : RtpParametersT :=
  { codecs := [rtxConsCodec], headerExtensions := some [],
    encodings := some [emptyEncoding], rtcp := some ⟨some "p", some true⟩ }

/-- An empty (but well-formed) remote capability set. -/
def capsEmpty : RtpCapabilitiesT := ⟨some [], some []⟩

/-- A feedback list exercising every branch of the pipe filter. -/
def fbRich : List RtcpFb :=
  [⟨"nack", ""⟩, ⟨"nack", "pli"⟩, ⟨"ccm", "fir"⟩, ⟨"goog-remb", ""⟩, ⟨"transport-cc", ""⟩]

/-- A consumable media codec carrying `fbRich`. -/
def mediaConsCodecRich : CodecParams :=
  { mimeType := "video/VP8", payloadType := some 96, clockRate := 90000,
    channels := none, parameters := [], rtcpFeedback := fbRich }

def extMid : HeaderExtParams := ⟨midUri, 1, false⟩

def extAbs : HeaderExtParams := ⟨absSendTimeUri, 4, false⟩

def extTwcc : HeaderExtParams := ⟨transportWideCcUri, 5, false⟩

def extToffset : HeaderExtParams := ⟨"urn:ietf:params:rtp-hdrext:toffset", 2, false⟩

/-- Consumable parameters exercising the pipe-consumer codec and extension
filters. -/
def consumablePipeW : RtpParametersT :=
  { codecs := [mediaConsCodecRich, rtxConsCodec],
    headerExtensions := some [extMid, extToffset, extAbs, extTwcc],
    encodings := some [emptyEncoding], rtcp := some ⟨some "pw", some true⟩ }

/-- The raw codec used as the lenient-validation witness: a non-number
`channels`, a non-object `parameters` and a non-array `rtcpFeedback`. -/
def rawCodecIllTyped : RawCodec :=
  { mimeType := .str "audio/opus", preferredPayloadType := .undefined,
    clockRate := .num 48000, channels := .str "stereo",
    parameters := .num 5, rtcpFeedback := .str "nope", kind := .undefined }

/-- A raw codec whose optional fields all need normalization. -/
def rawCodecW : RawCodec :=
  { mimeType := .str "audio/opus", preferredPayloadType := .undefined,
    clockRate := .num 48000, channels := .undefined,
    parameters := .obj [("x", .undefined)],
    rtcpFeedback := .arr [.obj [("type", .str "nack")]],
    kind := .str "wrong" }

/-- A raw header extension whose optional fields all need normalization. -/
def rawExtW : RawExt :=
  { kind := .str "audio", uri := .str "urn:x", preferredId := .num 1,
    preferredEncrypt := .undefined, direction := .undefined }

def rawCapsW : RawCaps := ⟨.arrF [rawCodecW], .arrF [rawExtW]⟩

/-- `rawCapsW` after one validation pass. -/
def rawCapsW' : RawCaps :=
  ⟨.arrF [{ mimeType := .str "audio/opus", preferredPayloadType := .undefined,
            clockRate := .num 48000, channels := .num 1,
            parameters := .obj [("x", .str "")],
            rtcpFeedback := .arr [.obj [("type", .str "nack"), ("parameter", .str "")]],
            kind := .str "audio" }],
   .arrF [{ kind := .str "audio", uri := .str "urn:x", preferredId := .num 1,
            preferredEncrypt := .bool false, direction := .str "sendrecv" }]⟩

/-- One output chunk of the router codec loop: a lone media codec, or a
media codec immediately followed by its synthesized RTX codec whose `apt`
parameter equals the media codec's payload type. -/
def RouterChunkOk (ch : List CodecCap) : Prop :=
  (∃ c, ch = [c]) ∨
  (∃ c pt p, ch = [c, rtxCodecFor c pt] ∧ c.preferredPayloadType = some p ∧
    lookupParam (rtxCodecFor c pt).parameters "apt" = some (.num p))

/-- The state invariant of the router codec loop. -/
def RouterInv (st : List CodecCap × List Int) : Prop :=
  st.2.Nodup ∧ st.2 ⊆ DynamicPayloadTypes ∧
  (∀ c ∈ st.1, ∀ q ∈ st.2, ¬(c.preferredPayloadType = some q)) ∧
  st.1.Pairwise (fun a b => a.preferredPayloadType ≠ b.preferredPayloadType) ∧
  (∃ chunks : List (List CodecCap), st.1 = chunks.flatten ∧ ∀ ch ∈ chunks, RouterChunkOk ch)

/-! ## Theorems -/

/-- **C6.** Requesting a single `video/VP8` codec (clockRate 90000) against
a supported table containing a matching `video/VP8` codec with no
`preferredPayloadType` yields exactly two codecs: VP8 at payload type 100 —
the first value of the declared dynamic pool order `100..127, 96..99` —
immediately followed by `video/rtx` at payload type 101 with
`parameters.apt = 100`. -/
theorem c6_vp8_router_scenario (ops : H264Ops) :
    generateRouterRtpCapabilities ops supportedVp8 [vp8Req] = .ok routerCapsVp8 ∧
    DynamicPayloadTypes.take 2 = [100, 101] :=
  ⟨rfl, rfl⟩

/-- **C1, counterexample.** When the supported table itself assigns a
`preferredPayloadType` inside the dynamic pool (here 100), the synthesized
RTX codec receives the same payload type: `generateRouterRtpCapabilities`
returns successfully with two codecs both at payload type 100, refuting
payload-type uniqueness over arbitrary supported tables. -/
theorem c1_counterexample :
    generateRouterRtpCapabilities trivialOps supportedVp8Pt100 [vp8Req] =
      .ok ⟨some routerDupCodecs, some []⟩ ∧
    ¬ routerDupCodecs.Pairwise (fun a b => a.preferredPayloadType ≠ b.preferredPayloadType) :=
  ⟨rfl, by decide⟩

/-- **C3.** When `generateRouterRtpCapabilities` needs a dynamic payload
type and the pool is empty it fails with the resource-exhaustion error
kind: (a) for a requested codec without a payload type whose matched
supported codec has none either; (b) for the RTX codec synthesized after a
video codec.  The resource kind is distinct from `TypeError` and
`UnsupportedError`, and an error outcome carries no partial result. -/
theorem c3_pool_exhaustion_error :
    (∀ (ops : H264Ops) (supportedCodecs codecs : List CodecCap) (mc mc' m : CodecCap),
      validateRtpCodecCapabilityT mc = .ok mc' →
      mc'.preferredPayloadType = none →
      supportedCodecs.find? (fun s => (matchCodecs ops false false mc'.toM s.toM).isSome) = some m →
      m.preferredPayloadType = none →
      addMediaCodec ops supportedCodecs (codecs, []) mc =
        .error (.resourceError "cannot allocate more dynamic codec payload types")) ∧
    (∀ (ops : H264Ops) (supportedCodecs codecs : List CodecCap) (mc mc' m : CodecCap) (p : Int),
      validateRtpCodecCapabilityT mc = .ok mc' →
      mc'.preferredPayloadType = some p →
      supportedCodecs.find? (fun s => (matchCodecs ops false false mc'.toM s.toM).isSome) = some m →
      m.kind = "video" →
      (∀ c ∈ codecs, ¬(c.preferredPayloadType = some p)) →
      addMediaCodec ops supportedCodecs (codecs, []) mc =
        .error (.resourceError "cannot allocate more dynamic codec payload types")) ∧
    (∀ m1 m2 : String, OrtcError.resourceError m1 ≠ .typeError m2 ∧
      OrtcError.resourceError m1 ≠ .unsupportedError m2) ∧
    (∀ (ops : H264Ops) (supported : RtpCapabilitiesT) (mcs : List CodecCap) (e : OrtcError),
      generateRouterRtpCapabilities ops supported mcs = .error e →
      ∀ caps, ¬(generateRouterRtpCapabilities ops supported mcs = .ok caps)) := by
  refine ⟨?_, ?_, ?_, ?_⟩
  · intro ops supportedCodecs codecs mc mc' m hval hpt hfind hmpt
    simp only [addMediaCodec, hval, hfind, hpt, hmpt, takeDynamicPT]
  · intro ops supportedCodecs codecs mc mc' m p hval hpt hfind hkind hdup
    have hany : codecs.any (fun c => c.preferredPayloadType == some p) = false := by
      simp only [List.any_eq_false]
      intro c hc
      simpa using hdup c hc
    simp only [addMediaCodec, hval, hfind, hpt, hkind, takeDynamicPT, List.erase_nil]
    simp [hany, hkind, takeDynamicPT]
  · intro m1 m2
    exact ⟨by simp, by simp⟩
  · intro ops supported mcs e herr caps hok
    rw [herr] at hok
    exact Except.noConfusion hok

/-- **C3, witness.** Requesting `vp8Req` against `[vp8Sup]` with an empty
pool hits the resource-exhaustion error. -/
theorem c3_pool_exhaustion_error_witness :
    addMediaCodec trivialOps [vp8Sup] ([], []) vp8Req =
      .error (.resourceError "cannot allocate more dynamic codec payload types") :=
  c3_pool_exhaustion_error.1 trivialOps [vp8Sup] [] vp8Req vp8Req vp8Sup rfl rfl rfl rfl

/-- **C9.** `validateRtpCodecCapability` never fails because of an
ill-typed optional field: with a well-formed `mimeType` and numeric
`clockRate`, a non-number `channels` is silently replaced (by 1 on an audio
codec), a non-object `parameters` by the empty mapping, and a non-array
`rtcpFeedback` by the empty list, and validation succeeds. -/
theorem c9_lenient_optional_fields (c : RawCodec) (s kind : String)
    (hmt : c.mimeType = .str s) (hk : mimeTypeKind s = some kind)
    (hpt : truthy c.preferredPayloadType = false ∨ isNumV c.preferredPayloadType = true)
    (hclk : isNumV c.clockRate = true)
    (hch : isNumV c.channels = false)
    (hpar : truthy c.parameters = false ∨ ¬(typeofJS c.parameters = "object"))
    (hfb : isArrV c.rtcpFeedback = false) :
    validateRtpCodecCapabilityRaw c =
      .ok { c with kind := .str kind,
                   channels := if kind == "audio" then .num 1 else .undefined,
                   parameters := .obj [], rtcpFeedback := .arr [] } := by
  have hs : (s == "") = false := by
    rcases hs0 : (s == "") with _ | _
    · rfl
    · exfalso
      have : s = "" := by simpa using hs0
      rw [this] at hk
      simp [mimeTypeKind] at hk
  have hptc : (truthy c.preferredPayloadType && !(isNumV c.preferredPayloadType)) = false := by
    rcases hpt with h | h <;> simp [h]
  have hparc : validateParametersRaw c.parameters = .ok (.obj []) := by
    rcases hpar with h | h
    · cases hv : c.parameters <;> simp_all [validateParametersRaw, truthy]
    · cases hv : c.parameters <;> simp_all [validateParametersRaw, typeofJS]
  have hfbc : validateRtcpFeedbackListRaw c.rtcpFeedback = .ok (.arr []) := by
    cases hv : c.rtcpFeedback <;> simp_all [validateRtcpFeedbackListRaw, isArrV]
  simp only [validateRtpCodecCapabilityRaw, hmt, hs, hk, hptc, hclk, hch, hparc, hfbc]
  simp [hch]

/-- **C9, witness.** An audio codec with `channels: "stereo"`,
`parameters: 5` and `rtcpFeedback: "nope"` validates successfully, with the
three fields replaced by `1`, `{}` and `[]`. -/
theorem c9_lenient_optional_fields_witness :
    validateRtpCodecCapabilityRaw rawCodecIllTyped =
      .ok { rawCodecIllTyped with
              kind := .str "audio"
              channels := .num 1
              parameters := .obj []
              rtcpFeedback := .arr [] } :=
  c9_lenient_optional_fields rawCodecIllTyped "audio/opus" "audio" rfl rfl
    (Or.inl rfl) rfl rfl (Or.inr (by decide)) rfl

/-- **C8.** For capabilities that validate successfully, `canConsume`
returns `true` iff some consumable codec strict-matches a capability codec
of the normalized capabilities and the first such matching codec is not
RTX; in particular it returns `false` whenever every consumable codec is an
RTX codec. -/
theorem c8_can_consume_characterization (ops : H264Ops)
    (consumableParams : RtpParametersT) (caps caps' : RtpCapabilitiesT)
    (hv : validateRtpCapabilitiesT caps = .ok caps') :
    (canConsume ops consumableParams caps = .ok true ↔
      ∃ c, (consumableParams.codecs.filter (fun codec =>
        ((caps'.codecs.getD []).find? (fun capCodec =>
          (matchCodecs ops true false capCodec.toM codec.toM).isSome)).isSome)).head? = some c ∧
        isRtxCodecP c = false) ∧
    ((∀ c ∈ consumableParams.codecs, isRtxCodecP c = true) →
      canConsume ops consumableParams caps = .ok false) := by
  simp only [canConsume, hv]
  constructor
  · cases hl : consumableParams.codecs.filter (fun codec =>
        ((caps'.codecs.getD []).find? (fun capCodec =>
          (matchCodecs ops true false capCodec.toM codec.toM).isSome)).isSome) with
    | nil => simp
    | cons c t => simp
  · intro hall
    cases hl : consumableParams.codecs.filter (fun codec =>
        ((caps'.codecs.getD []).find? (fun capCodec =>
          (matchCodecs ops true false capCodec.toM codec.toM).isSome)).isSome) with
    | nil => simp
    | cons c t =>
      have hc : c ∈ consumableParams.codecs := by
        have : c ∈ consumableParams.codecs.filter (fun codec =>
          ((caps'.codecs.getD []).find? (fun capCodec =>
            (matchCodecs ops true false capCodec.toM codec.toM).isSome)).isSome) := by
          rw [hl]; exact List.mem_cons_self c t
        exact (List.mem_filter.mp this).1
      simp [hall c hc]

/-- **C8, witness.** Consumable parameters containing only an RTX codec
cannot be consumed under (well-formed, empty) capabilities. -/
theorem c8_can_consume_characterization_witness :
    canConsume trivialOps consumableRtxOnly capsEmpty = .ok false :=
  (c8_can_consume_characterization trivialOps consumableRtxOnly capsEmpty capsEmpty rfl).2
    (by decide)

/-- Every codec emitted by the pipe-consumer codec loop comes from the
consumable list with its feedback narrowed by `pipeFbPred`; when
`enableRtx` is false its source codec is not RTX. -/
theorem pipeConsumerCodecs_mem (enableRtx : Bool) :
    ∀ (cs : List CodecParams), ∀ c ∈ pipeConsumerCodecs enableRtx cs,
      ∃ c₀ ∈ cs,
        c = { c₀ with rtcpFeedback := c₀.rtcpFeedback.filter (pipeFbPred enableRtx) } ∧
        (enableRtx = false → isRtxCodecP c₀ = false) := by
  intro cs
  induction cs with
  | nil => simp [pipeConsumerCodecs]
  | cons codec rest ih =>
    intro c hc
    by_cases hskip : (!enableRtx && isRtxCodecP codec) = true
    · rw [pipeConsumerCodecs, if_pos hskip] at hc
      obtain ⟨c₀, hmem, heq⟩ := ih c hc
      exact ⟨c₀, List.mem_cons_of_mem _ hmem, heq⟩
    · rw [pipeConsumerCodecs, if_neg hskip] at hc
      rcases List.mem_cons.mp hc with heq | hmem
      · refine ⟨codec, List.mem_cons_self _ _, heq, ?_⟩
        intro hrtx
        rw [hrtx] at hskip
        simpa using hskip
      · obtain ⟨c₀, hm, he⟩ := ih c hmem
        exact ⟨c₀, List.mem_cons_of_mem _ hm, he⟩

/-- **C7.** `getPipeConsumerRtpParameters` succeeds, every returned codec's
`rtcpFeedback` is exactly the input feedback narrowed to NACK-with-PLI,
CCM-with-FIR and (only when `enableRtx`) bare NACK, RTX codecs are dropped
when `enableRtx` is false, and the returned header extensions are the
consumable ones minus the MID, abs-send-time and transport-wide-CC URIs. -/
theorem c7_pipe_consumer_filters (consumable : RtpParametersT) (enableRtx : Bool)
    (b1 b2 : Int) (hx : List HeaderExtParams)
    (hhx : consumable.headerExtensions = some hx) :
    ∃ res, getPipeConsumerRtpParameters consumable enableRtx b1 b2 = .ok res ∧
      (∀ c ∈ res.codecs, ∃ c₀ ∈ consumable.codecs,
        c.mimeType = c₀.mimeType ∧ c.payloadType = c₀.payloadType ∧
        c.rtcpFeedback = c₀.rtcpFeedback.filter (fun fb =>
          (fb.type == "nack" && fb.parameter == "pli") ||
          (fb.type == "ccm" && fb.parameter == "fir") ||
          (enableRtx && fb.type == "nack" && fb.parameter == ""))) ∧
      (enableRtx = false → ∀ c ∈ res.codecs, isRtxCodecP c = false) ∧
      res.headerExtensions = some (hx.filter (fun ext =>
        !(ext.uri == midUri) && !(ext.uri == absSendTimeUri) &&
        !(ext.uri == transportWideCcUri))) := by
  have hrun : getPipeConsumerRtpParameters consumable enableRtx b1 b2 =
      .ok { codecs := pipeConsumerCodecs enableRtx consumable.codecs
            headerExtensions := some (hx.filter (fun ext =>
              !(ext.uri == midUri) && !(ext.uri == absSendTimeUri) &&
              !(ext.uri == transportWideCcUri)))
            encodings := some (pipeEncodingsLoop enableRtx b1 b2 (consumable.encodings.getD []) 0)
            rtcp := consumable.rtcp } := by
    simp only [getPipeConsumerRtpParameters, hhx, bangOpt]
  refine ⟨_, hrun, ?_, ?_, rfl⟩
  · intro c hc
    obtain ⟨c₀, hmem, heq, _⟩ := pipeConsumerCodecs_mem enableRtx consumable.codecs c hc
    subst heq
    exact ⟨c₀, hmem, rfl, rfl, rfl⟩
  · intro hrtx c hc
    obtain ⟨c₀, hmem, heq, hno⟩ := pipeConsumerCodecs_mem enableRtx consumable.codecs c hc
    subst heq
    simpa [isRtxCodecP] using hno hrtx

/-- **C7, witness.** The pipe filters applied to a concrete consumable
parameter set with a rich feedback list, an RTX codec, and all four header
extension kinds, with `enableRtx = false`. -/
theorem c7_pipe_consumer_filters_witness :
    ∃ res, getPipeConsumerRtpParameters consumablePipeW false 111111111 222222222 = .ok res ∧
      (∀ c ∈ res.codecs, ∃ c₀ ∈ consumablePipeW.codecs,
        c.mimeType = c₀.mimeType ∧ c.payloadType = c₀.payloadType ∧
        c.rtcpFeedback = c₀.rtcpFeedback.filter (fun fb =>
          (fb.type == "nack" && fb.parameter == "pli") ||
          (fb.type == "ccm" && fb.parameter == "fir") ||
          (false && fb.type == "nack" && fb.parameter == ""))) ∧
      (false = false → ∀ c ∈ res.codecs, isRtxCodecP c = false) ∧
      res.headerExtensions = some ([extMid, extToffset, extAbs, extTwcc].filter (fun ext =>
        !(ext.uri == midUri) && !(ext.uri == absSendTimeUri) &&
        !(ext.uri == transportWideCcUri))) :=
  c7_pipe_consumer_filters consumablePipeW false 111111111 222222222
    [extMid, extToffset, extAbs, extTwcc] rfl

/-- With RTX disabled, a consumable codec list made only of RTX codecs is
filtered to nothing by the pipe-consumer codec loop. -/
theorem pipeConsumerCodecs_allRtx (cs : List CodecParams)
    (h : ∀ c ∈ cs, isRtxCodecP c = true) : pipeConsumerCodecs false cs = [] := by
  induction cs with
  | nil => rfl
  | cons codec rest ih =>
    rw [pipeConsumerCodecs, if_pos (by simp [h codec (List.mem_cons_self _ _)])]
    exact ih (fun c hc => h c (List.mem_cons_of_mem _ hc))

/-- **C10.** `getPipeConsumerRtpParameters` never fails with an Unsupported
error: it returns a result for every consumable parameter set (with its
header-extension list present), even one with zero codecs when `enableRtx`
is false and every consumable codec is RTX — whereas
`getConsumerRtpParameters` fails with `UnsupportedError` whenever, after
matching and RTX sanitizing, no codec remains or the first remaining codec
is RTX. -/
theorem c10_pipe_total_consumer_fails :
    (∀ (consumable : RtpParametersT) (enableRtx : Bool) (b1 b2 : Int)
       (hx : List HeaderExtParams), consumable.headerExtensions = some hx →
      ∃ res, getPipeConsumerRtpParameters consumable enableRtx b1 b2 = .ok res ∧
        ((enableRtx = false ∧ ∀ c ∈ consumable.codecs, isRtxCodecP c = true) →
          res.codecs = [])) ∧
    (∀ (ops : H264Ops) (consumable : RtpParametersT) (remote : RtpCapabilitiesT)
       (pipe enableRtx : Bool) (r1 r2 : Int) (rcs remCodecs : List CodecCap),
      remote.codecs = some rcs →
      validateCodecListT rcs = .ok remCodecs →
      ((sanitizeRtxFrom (consumerMatchCodecs ops enableRtx remCodecs consumable.codecs).length
          (consumerMatchCodecs ops enableRtx remCodecs consumable.codecs, false)).1 = [] ∨
        ∃ c t, (sanitizeRtxFrom (consumerMatchCodecs ops enableRtx remCodecs consumable.codecs).length
          (consumerMatchCodecs ops enableRtx remCodecs consumable.codecs, false)).1 = c :: t ∧
          isRtxCodecP c = true) →
      getConsumerRtpParameters ops consumable remote pipe enableRtx r1 r2 =
        .error (.unsupportedError "no compatible media codecs")) := by
  constructor
  · intro consumable enableRtx b1 b2 hx hhx
    have hrun : getPipeConsumerRtpParameters consumable enableRtx b1 b2 =
        .ok { codecs := pipeConsumerCodecs enableRtx consumable.codecs
              headerExtensions := some (hx.filter (fun ext =>
                !(ext.uri == midUri) && !(ext.uri == absSendTimeUri) &&
                !(ext.uri == transportWideCcUri)))
              encodings := some (pipeEncodingsLoop enableRtx b1 b2 (consumable.encodings.getD []) 0)
              rtcp := consumable.rtcp } := by
      simp only [getPipeConsumerRtpParameters, hhx, bangOpt]
    refine ⟨_, hrun, ?_⟩
    rintro ⟨hrtx, hall⟩
    subst hrtx
    exact pipeConsumerCodecs_allRtx consumable.codecs hall
  · intro ops consumable remote pipe enableRtx r1 r2 rcs remCodecs hrcs hval hcond
    rcases hcond with hnil | ⟨c, t, hcons, hrtx⟩
    · simp only [getConsumerRtpParameters, hrcs, bangOpt, hval, hnil]
    · simp only [getConsumerRtpParameters, hrcs, bangOpt, hval, hcons, hrtx, if_true]

/-- **C10, witness.** On a consumable parameter set whose only codec is RTX
and with `enableRtx = false`: the pipe consumer returns a result with zero
codecs, while the unicast consumer (under empty, valid remote capabilities)
fails with the Unsupported error. -/
theorem c10_pipe_total_consumer_fails_witness :
    (∃ res, getPipeConsumerRtpParameters consumableRtxOnly false 333333333 444444444 = .ok res ∧
      ((false = false ∧ ∀ c ∈ consumableRtxOnly.codecs, isRtxCodecP c = true) →
        res.codecs = [])) ∧
    getConsumerRtpParameters trivialOps consumableRtxOnly capsEmpty false false 333333333 444444444 =
      .error (.unsupportedError "no compatible media codecs") :=
  ⟨c10_pipe_total_consumer_fails.1 consumableRtxOnly false 333333333 444444444 [] rfl,
   c10_pipe_total_consumer_fails.2 trivialOps consumableRtxOnly capsEmpty false false
     333333333 444444444 [] [] rfl rfl (Or.inl rfl)⟩

/-- The capability codec returned by a modify-find comes from the searched
list. -/
theorem findModify_mem (ops : H264Ops) (codec : CodecParams) :
    ∀ (l : List CodecCap) (cap : CodecCap) (c' : CodecParams),
      findModify ops codec l = some (cap, c') → cap ∈ l := by
  intro l
  induction l with
  | nil => intro cap c' h; simp [findModify] at h
  | cons x rest ih =>
    intro cap c' h
    rw [findModify] at h
    cases hm : matchCodecs ops true true codec.toM x.toM with
    | some ps =>
      rw [hm] at h
      simp only [Option.some.injEq, Prod.mk.injEq] at h
      exact h.1 ▸ List.mem_cons_self x rest
    | none =>
      rw [hm] at h
      exact List.mem_cons_of_mem _ (ih cap c' h)

/-- Every `Map` entry produced by the producer media-codec loop points at a
codec of the capability list. -/
theorem producerMediaLoop_mem (ops : H264Ops) (capsCodecs : List CodecCap) :
    ∀ (cs : List CodecParams) (i : Nat) entries cs',
      producerMediaLoop ops capsCodecs cs i = .ok (entries, cs') →
      ∀ e ∈ entries, e.2.2 ∈ capsCodecs := by
  intro cs
  induction cs with
  | nil =>
    intro i entries cs' h e he
    simp only [producerMediaLoop, Except.ok.injEq, Prod.mk.injEq] at h
    rw [← h.1] at he
    simp at he
  | cons codec rest ih =>
    intro i entries cs' h e he
    rw [producerMediaLoop] at h
    by_cases hrtx : isRtxCodecP codec = true
    · rw [if_pos hrtx] at h
      cases hrec : producerMediaLoop ops capsCodecs rest (i + 1) with
      | error er => rw [hrec] at h; exact absurd h (by simp)
      | ok p =>
        rw [hrec] at h
        simp only [Except.ok.injEq, Prod.mk.injEq] at h
        rw [← h.1] at he
        exact ih (i + 1) p.1 p.2 (by rw [hrec]) e he
    · rw [if_neg hrtx] at h
      cases hfm : findModify ops codec capsCodecs with
      | none => rw [hfm] at h; exact absurd h (by simp)
      | some capc =>
        rw [hfm] at h
        cases hrec : producerMediaLoop ops capsCodecs rest (i + 1) with
        | error er => rw [hrec] at h; exact absurd h (by simp)
        | ok p =>
          rw [hrec] at h
          simp only [Except.ok.injEq, Prod.mk.injEq] at h
          rw [← h.1] at he
          rcases List.mem_cons.mp he with heq | hm
          · rw [heq]
            exact findModify_mem ops codec capsCodecs capc.1 capc.2 (by rw [hfm])
          · exact ih (i + 1) p.1 p.2 (by rw [hrec]) e hm

/-- The producer RTX loop preserves that property. -/
theorem producerRtxLoop_mem (capsCodecs : List CodecCap) (allCodecs : List CodecParams) :
    ∀ (cs : List CodecParams) (i : Nat) (acc entries : List (Nat × CodecParams × CodecCap)),
      (∀ e ∈ acc, e.2.2 ∈ capsCodecs) →
      producerRtxLoop capsCodecs allCodecs cs i acc = .ok entries →
      ∀ e ∈ entries, e.2.2 ∈ capsCodecs := by
  intro cs
  induction cs with
  | nil =>
    intro i acc entries hacc h
    simp only [producerRtxLoop, Except.ok.injEq] at h
    rw [← h]
    exact hacc
  | cons codec rest ih =>
    intro i acc entries hacc h
    rw [producerRtxLoop] at h
    by_cases hrtx : (!(isRtxCodecP codec)) = true
    · rw [if_pos hrtx] at h
      exact ih (i + 1) acc entries hacc h
    · rw [if_neg hrtx] at h
      split at h
      · exact absurd h (by simp)
      · split at h
        · exact absurd h (by simp)
        · simp only [] at h
          split at h
          · exact absurd h (by simp)
          · next capRtx hfr =>
              refine ih (i + 1) _ entries ?_ h
              intro e he
              rcases List.mem_append.mp he with hm | hm
              · exact hacc e hm
              · simp only [List.mem_singleton] at hm
                rw [hm]
                exact List.mem_of_find?_eq_some hfr

/-- Every codec emitted by the consumable codec loop takes its payload type
from the `preferredPayloadType` of some capability codec. -/
theorem consumableCodecsLoop_mem (capsCodecs : List CodecCap) (mc : List MappingCodec) :
    ∀ (cs : List CodecParams) (out : List CodecParams),
      consumableCodecsLoop capsCodecs mc cs = .ok out →
      ∀ c ∈ out, ∃ cap ∈ capsCodecs, c.payloadType = cap.preferredPayloadType := by
  intro cs
  induction cs with
  | nil =>
    intro out h c hc
    simp only [consumableCodecsLoop, Except.ok.injEq] at h
    rw [← h] at hc
    simp at hc
  | cons codec rest ih =>
    intro out h c hc
    rw [consumableCodecsLoop] at h
    by_cases hrtx : isRtxCodecP codec = true
    · rw [if_pos hrtx] at h
      exact ih out h c hc
    · rw [if_neg hrtx] at h
      cases hentry : mc.find? (fun entry => entry.payloadType == codec.payloadType) with
      | none => rw [hentry] at h; exact absurd h (by simp)
      | some entry =>
        rw [hentry] at h
        simp only [] at h
        cases hcap : capsCodecs.find? (fun capCodec =>
            capCodec.preferredPayloadType == entry.mappedPayloadType) with
        | none => rw [hcap] at h; exact absurd h (by simp)
        | some matchedCapCodec =>
          rw [hcap] at h
          cases hrec : consumableCodecsLoop capsCodecs mc rest with
          | error er => rw [hrec] at h; exact absurd h (by simp)
          | ok tail =>
            rw [hrec] at h
            simp only [Except.ok.injEq] at h
            rw [← h] at hc
            rcases List.mem_cons.mp hc with heq | hm
            · exact ⟨matchedCapCodec, List.mem_of_find?_eq_some hcap, by rw [heq]⟩
            · rcases List.mem_append.mp hm with hrtxm | htail
              · cases hcr : capsCodecs.find? (fun capRtxCodec =>
                    isRtxCodec capRtxCodec &&
                    jsEqPtApt (matchedCapCodec.preferredPayloadType) (lookupParam capRtxCodec.parameters "apt")) with
                | none => rw [hcr] at hrtxm; simp at hrtxm
                | some consumableCapRtxCodec =>
                  rw [hcr] at hrtxm
                  simp only [List.mem_singleton] at hrtxm
                  refine ⟨consumableCapRtxCodec, List.mem_of_find?_eq_some hcr, ?_⟩
                  rw [hrtxm]
              · exact ih tail (by rw [hrec]) c htail

/-- **C2.** When `getProducerRtpParametersMapping` succeeds, every
`mappedPayloadType` in the produced mapping equals the
`preferredPayloadType` of some codec of the router capabilities, and every
codec payload type emitted by a successful `getConsumableRtpParameters` run
against the same capabilities and that mapping does as well. -/
theorem c2_mapping_pts_from_caps (ops : H264Ops) (params : RtpParametersT) (caps : RtpCapabilitiesT)
    (base : Int) (m : RtpMappingT) (codecs' : List CodecParams)
    (h : getProducerRtpParametersMapping ops params caps base = .ok (m, codecs')) :
    ∃ cs, caps.codecs = some cs ∧
      (∀ e ∈ m.codecs, ∃ cap ∈ cs, e.mappedPayloadType = cap.preferredPayloadType) ∧
      (∀ (kind : String) (p2 res : RtpParametersT),
        getConsumableRtpParameters kind p2 caps m = .ok res →
        ∀ c ∈ res.codecs, ∃ cap ∈ cs, c.payloadType = cap.preferredPayloadType) := by
  cases hcs : caps.codecs with
  | none =>
    rw [getProducerRtpParametersMapping, hcs] at h
    exact absurd h (by simp [bangOpt])
  | some cs =>
    rw [getProducerRtpParametersMapping, hcs] at h
    simp only [bangOpt] at h
    refine ⟨cs, rfl, ?_, ?_⟩
    · cases hml : producerMediaLoop ops cs params.codecs 0 with
      | error er => rw [hml] at h; exact absurd h (by simp)
      | ok p1 =>
        rw [hml] at h
        obtain ⟨entries1, pcodecs⟩ := p1
        simp only [] at h
        cases hrl : producerRtxLoop cs pcodecs pcodecs 0 entries1 with
        | error er => rw [hrl] at h; exact absurd h (by simp)
        | ok entries =>
          rw [hrl] at h
          cases henc : params.encodings with
          | none => rw [henc] at h; exact absurd h (by simp [bangOpt])
          | some encodings =>
            rw [henc] at h
            simp only [bangOpt, Except.ok.injEq, Prod.mk.injEq] at h
            have hm : m.codecs = entries.map (fun e =>
                { payloadType := e.2.1.payloadType
                  mappedPayloadType := e.2.2.preferredPayloadType : MappingCodec }) := by
              rw [← h.1]
            intro e he
            rw [hm] at he
            obtain ⟨entry, hentry, heq⟩ := List.mem_map.mp he
            have hmem : entry.2.2 ∈ cs := by
              refine producerRtxLoop_mem cs pcodecs pcodecs 0 entries1 entries ?_ (by rw [hrl]) entry hentry
              exact producerMediaLoop_mem ops cs params.codecs 0 entries1 pcodecs (by rw [hml])
            exact ⟨entry.2.2, hmem, by rw [← heq]⟩
    · intro kind p2 res h2 c hc
      rw [getConsumableRtpParameters, hcs] at h2
      simp only [bangOpt] at h2
      cases hloop : consumableCodecsLoop cs m.codecs p2.codecs with
      | error er => rw [hloop] at h2; exact absurd h2 (by simp)
      | ok out =>
        rw [hloop] at h2
        cases hext : caps.headerExtensions with
        | none => rw [hext] at h2; exact absurd h2 (by simp [bangOpt])
        | some capExts =>
          rw [hext] at h2
          simp only [bangOpt] at h2
          cases hel : consumableEncodingsLoop m.encodings (p2.encodings.getD []) 0 with
          | error er => rw [hel] at h2; exact absurd h2 (by simp)
          | ok encs =>
            rw [hel] at h2
            cases hrtcp : p2.rtcp with
            | none => rw [hrtcp] at h2; exact absurd h2 (by simp [bangOpt])
            | some rtcpv =>
              rw [hrtcp] at h2
              simp only [bangOpt, Except.ok.injEq] at h2
              have hresc : res.codecs = out := by rw [← h2]
              rw [hresc] at hc
              exact consumableCodecsLoop_mem cs m.codecs p2.codecs out (by rw [hloop]) c hc

/-- **C2, witness.** The VP8 producer mapped against the generated router
capabilities. -/
theorem c2_mapping_pts_from_caps_witness :
    ∃ cs, routerCapsVp8.codecs = some cs ∧
      (∀ e ∈ (⟨[⟨some 96, some 100⟩],
               [⟨none, none, none, 300000000⟩]⟩ : RtpMappingT).codecs,
        ∃ cap ∈ cs, e.mappedPayloadType = cap.preferredPayloadType) ∧
      (∀ (kind : String) (p2 res : RtpParametersT),
        getConsumableRtpParameters kind p2 routerCapsVp8
          ⟨[⟨some 96, some 100⟩], [⟨none, none, none, 300000000⟩]⟩ = .ok res →
        ∀ c ∈ res.codecs, ∃ cap ∈ cs, c.payloadType = cap.preferredPayloadType) :=
  c2_mapping_pts_from_caps trivialOps producerParamsW routerCapsVp8 300000000
    ⟨[⟨some 96, some 100⟩], [⟨none, none, none, 300000000⟩]⟩ [producerVp8Codec] rfl

/-- On two consumable encodings whose first declares scalability mode
`L1T3`, the single non-pipe consumer encoding rewrites the mode to `L2T3`;
its `maxBitrate` is the maximum declared one when some declared maxBitrate
is positive, and is unset when no declared maxBitrate is positive. -/
theorem consumerEncodingNonPipe_two (e1 e2 : EncodingT) (rtxSupported : Bool) (r1 : Int)
    (hsm1 : e1.scalabilityMode = some "L1T3") :
    (consumerEncodingNonPipe [e1, e2] rtxSupported r1).scalabilityMode = some "L2T3" ∧
    ((∃ b, (e1.maxBitrate = some b ∨ e2.maxBitrate = some b) ∧ 0 < b) →
      (consumerEncodingNonPipe [e1, e2] rtxSupported r1).maxBitrate =
        some (max (e1.maxBitrate.getD 0) (e2.maxBitrate.getD 0))) ∧
    ((∀ b, e1.maxBitrate = some b → b ≤ 0) → (∀ b, e2.maxBitrate = some b → b ≤ 0) →
      (consumerEncodingNonPipe [e1, e2] rtxSupported r1).maxBitrate = none) := by
  have hfind : ([e1, e2].find? (fun e =>
      match e.scalabilityMode with
      | some s => !(s == "")
      | none => false)) = some e1 := by
    rw [List.find?]
    simp [hsm1]
  refine ⟨?_, ?_, ?_⟩
  · simp only [consumerEncodingNonPipe, hfind, hsm1]
    norm_num
    constructor
    · decide
    · decide
  · rintro ⟨b, hb, hbpos⟩
    simp only [consumerEncodingNonPipe]
    rcases h1 : e1.maxBitrate with _ | b1 <;> rcases h2 : e2.maxBitrate with _ | b2 <;>
      simp only [List.foldl, h1, h2, Option.getD] <;>
      rcases hb with hb | hb <;> rw [h1] at * <;> rw [h2] at * <;> simp_all <;> omega
  · intro hle1 hle2
    simp only [consumerEncodingNonPipe]
    rcases h1 : e1.maxBitrate with _ | b1 <;> rcases h2 : e2.maxBitrate with _ | b2 <;>
      simp only [List.foldl, h1, h2] <;> simp_all <;> omega

/-- **C5 (amended).** For consumable parameters whose encodings are exactly
two entries with scalability mode `L1T3`, every successful
`getConsumerRtpParameters` run with `pipe = false` returns exactly one
encoding with scalability mode `L2T3` (encoding count as spatial count,
temporal layers preserved); its `maxBitrate` is the maximum declared
consumable `maxBitrate` when a positive one is declared, and is absent when
none is positive. -/
theorem c5_simulcast_collapse_amended (ops : H264Ops) (consumable : RtpParametersT) (remote : RtpCapabilitiesT)
    (enableRtx : Bool) (r1 r2 : Int) (res : RtpParametersT) (e1 e2 : EncodingT)
    (henc : consumable.encodings = some [e1, e2])
    (hsm1 : e1.scalabilityMode = some "L1T3")
    (hsm2 : e2.scalabilityMode = some "L1T3")
    (h : getConsumerRtpParameters ops consumable remote false enableRtx r1 r2 = .ok res) :
    ∃ enc, res.encodings = some [enc] ∧
      enc.scalabilityMode = some "L2T3" ∧
      ((∃ b, (e1.maxBitrate = some b ∨ e2.maxBitrate = some b) ∧ 0 < b) →
        enc.maxBitrate = some (max (e1.maxBitrate.getD 0) (e2.maxBitrate.getD 0))) ∧
      ((∀ b, e1.maxBitrate = some b → b ≤ 0) → (∀ b, e2.maxBitrate = some b → b ≤ 0) →
        enc.maxBitrate = none) := by
  rw [getConsumerRtpParameters] at h
  cases hrc : remote.codecs with
  | none => rw [hrc] at h; exact absurd h (by simp [bangOpt])
  | some rcs =>
    rw [hrc] at h
    simp only [bangOpt] at h
    cases hval : validateCodecListT rcs with
    | error er => rw [hval] at h; exact absurd h (by simp)
    | ok remCodecs =>
      rw [hval] at h
      simp only [] at h
      split at h
      · exact absurd h (by simp)
      · split at h
        · exact absurd h (by simp)
        · cases hce : consumable.headerExtensions with
          | none => rw [hce] at h; exact absurd h (by simp [bangOpt])
          | some consExts =>
            rw [hce] at h
            simp only [bangOpt] at h
            cases hre : remote.headerExtensions with
            | none => rw [hre] at h; exact absurd h (by simp [bangOpt])
            | some remExts =>
              rw [hre] at h
              simp only [bangOpt, Bool.not_false, if_true] at h
              rw [henc] at h
              simp only [bangOpt, Except.ok.injEq] at h
              obtain ⟨hsm, hmb1, hmb2⟩ := consumerEncodingNonPipe_two e1 e2
                (sanitizeRtxFrom (consumerMatchCodecs ops enableRtx remCodecs consumable.codecs).length
                  (consumerMatchCodecs ops enableRtx remCodecs consumable.codecs, false)).2 r1 hsm1
              refine ⟨_, ?_, hsm, hmb1, hmb2⟩
              rw [← h]

/-- **C5, counterexample.** Both consumable encodings declare a `maxBitrate`
(the falsy value 0); the claim requires the consumer encoding's
`maxBitrate` to equal the maximum declared value (0), but the code leaves
it unset. -/
theorem c5_counterexample :
    getConsumerRtpParameters trivialOps consumableL1T3Zero supportedVp8 false false
        500000000 600000000 =
      .ok { codecs := [consVp8Codec]
            headerExtensions := some []
            encodings := some [{ ssrc := some 500000000, rid := none,
                                 codecPayloadType := none, rtx := none,
                                 maxBitrate := none, scalabilityMode := some "L2T3" }]
            rtcp := some ⟨some "c5", some true⟩ } ∧
    encL1T3Zero.maxBitrate = some 0 :=
  ⟨rfl, rfl⟩

/-- **C5, witness.** The amended claim at a concrete simulcast input with
positive declared maxBitrates 5 and 3. -/
theorem c5_simulcast_collapse_amended_witness :
    ∃ enc, (RtpParametersT.encodings
        { codecs := [consVp8Codec]
          headerExtensions := some []
          encodings := some [{ ssrc := some 500000000, rid := none,
                               codecPayloadType := none, rtx := none,
                               maxBitrate := some 5, scalabilityMode := some "L2T3" }]
          rtcp := some ⟨some "c5", some true⟩ }) = some [enc] ∧
      enc.scalabilityMode = some "L2T3" ∧
      ((∃ b, (encL1T3Five.maxBitrate = some b ∨ encL1T3Three.maxBitrate = some b) ∧ 0 < b) →
        enc.maxBitrate = some (max (encL1T3Five.maxBitrate.getD 0) (encL1T3Three.maxBitrate.getD 0))) ∧
      ((∀ b, encL1T3Five.maxBitrate = some b → b ≤ 0) →
       (∀ b, encL1T3Three.maxBitrate = some b → b ≤ 0) →
        enc.maxBitrate = none) :=
  c5_simulcast_collapse_amended trivialOps consumableL1T3Pos supportedVp8 false
    500000000 600000000 _ encL1T3Five encL1T3Three rfl rfl rfl rfl

/-- Appending a non-video codec whose payload type is fresh preserves the
router loop invariant. -/
theorem routerInv_append_media (codecs : List CodecCap) (pool : List Int)
    (codec : CodecCap) (p : Int)
    (hnodup : pool.Nodup) (hsub : pool ⊆ DynamicPayloadTypes)
    (hdisj : ∀ c ∈ codecs, ∀ q ∈ pool, ¬(c.preferredPayloadType = some q))
    (hpair : codecs.Pairwise (fun a b => a.preferredPayloadType ≠ b.preferredPayloadType))
    (hch : ∃ chunks : List (List CodecCap), codecs = chunks.flatten ∧ ∀ ch ∈ chunks, RouterChunkOk ch)
    (hpt : codec.preferredPayloadType = some p)
    (hpnot : p ∉ pool)
    (hnew : ∀ c ∈ codecs, ¬(c.preferredPayloadType = some p)) :
    RouterInv (codecs ++ [codec], pool) := by
  obtain ⟨chunks, hflat, hok⟩ := hch
  refine ⟨hnodup, hsub, ?_, ?_, chunks ++ [[codec]], ?_, ?_⟩
  · intro c hc q hq
    rcases List.mem_append.mp hc with hm | hm
    · exact hdisj c hm q hq
    · simp only [List.mem_singleton] at hm
      rw [hm, hpt]
      intro he
      rw [Option.some.injEq] at he
      rw [he] at hpnot
      exact hpnot hq
  · refine List.pairwise_append.mpr ⟨hpair, by simp, ?_⟩
    intro a ha b hb
    simp only [List.mem_singleton] at hb
    rw [hb, hpt]
    exact hnew a ha
  · rw [List.flatten_append, ← hflat]
    simp
  · intro ch hc
    rcases List.mem_append.mp hc with hm | hm
    · exact hok ch hm
    · simp only [List.mem_singleton] at hm
      rw [hm]
      exact Or.inl ⟨codec, rfl⟩

/-- Appending a video codec and its synthesized RTX codec (with a payload
type popped off the pool) preserves the router loop invariant. -/
theorem routerInv_append_video (codecs : List CodecCap) (pool2 : List Int)
    (codec : CodecCap) (p pt2 : Int)
    (hnodup : (pt2 :: pool2).Nodup) (hsub : pt2 :: pool2 ⊆ DynamicPayloadTypes)
    (hdisj : ∀ c ∈ codecs, ∀ q ∈ pt2 :: pool2, ¬(c.preferredPayloadType = some q))
    (hpair : codecs.Pairwise (fun a b => a.preferredPayloadType ≠ b.preferredPayloadType))
    (hch : ∃ chunks : List (List CodecCap), codecs = chunks.flatten ∧ ∀ ch ∈ chunks, RouterChunkOk ch)
    (hpt : codec.preferredPayloadType = some p)
    (hpnot : p ∉ pt2 :: pool2)
    (hnew : ∀ c ∈ codecs, ¬(c.preferredPayloadType = some p)) :
    RouterInv (codecs ++ [codec, rtxCodecFor codec pt2], pool2) := by
  obtain ⟨chunks, hflat, hok⟩ := hch
  have hpne : p ≠ pt2 := fun he => hpnot (he ▸ List.mem_cons_self pt2 pool2)
  have hpt2nin : pt2 ∉ pool2 := by
    intro hm
    exact (List.pairwise_cons.mp hnodup).1 pt2 hm rfl
  have hrtxpt : (rtxCodecFor codec pt2).preferredPayloadType = some pt2 := rfl
  refine ⟨(List.pairwise_cons.mp hnodup).2, fun q hq => hsub (List.mem_cons_of_mem _ hq),
    ?_, ?_, chunks ++ [[codec, rtxCodecFor codec pt2]], ?_, ?_⟩
  · intro c hc q hq
    rcases List.mem_append.mp hc with hm | hm
    · exact hdisj c hm q (List.mem_cons_of_mem _ hq)
    · rcases List.mem_cons.mp hm with he | he
      · rw [he, hpt]
        intro hx
        rw [Option.some.injEq] at hx
        exact hpnot (hx ▸ List.mem_cons_of_mem _ hq)
      · simp only [List.mem_singleton] at he
        rw [he, hrtxpt]
        intro hx
        rw [Option.some.injEq] at hx
        exact hpt2nin (hx ▸ hq)
  · refine List.pairwise_append.mpr ⟨hpair, ?_, ?_⟩
    · refine List.pairwise_cons.mpr ⟨?_, by simp⟩
      intro b hb
      simp only [List.mem_singleton] at hb
      rw [hb, hpt, hrtxpt]
      intro hx
      rw [Option.some.injEq] at hx
      exact hpne hx
    · intro a ha b hb
      rcases List.mem_cons.mp hb with he | he
      · rw [he, hpt]
        exact hnew a ha
      · simp only [List.mem_singleton] at he
        rw [he, hrtxpt]
        intro hx
        exact hdisj a ha pt2 (List.mem_cons_self _ _) hx
  · rw [List.flatten_append, ← hflat]
    simp
  · intro ch hc
    rcases List.mem_append.mp hc with hm | hm
    · exact hok ch hm
    · simp only [List.mem_singleton] at hm
      rw [hm]
      refine Or.inr ⟨codec, pt2, p, rfl, hpt, ?_⟩
      simp [rtxCodecFor, hpt, lookupParam]

/-- A successful pool pop returns the head and tail of the pool. -/
theorem takeDynamicPT_ok (l : List Int) (pt : Int) (rest : List Int)
    (h : takeDynamicPT l = .ok (pt, rest)) : l = pt :: rest := by
  cases l with
  | nil => simp [takeDynamicPT] at h
  | cons a t =>
    rw [takeDynamicPT] at h
    by_cases ha : (a == 0) = true
    · rw [if_pos ha] at h; simp at h
    · rw [if_neg ha] at h
      simp only [Except.ok.injEq, Prod.mk.injEq] at h
      rw [h.1, h.2]

/-- One iteration of the router codec loop preserves the invariant,
provided no supported-table codec claims a payload type from the dynamic
pool. -/
theorem addMediaCodec_inv (ops : H264Ops) (supportedCodecs : List CodecCap)
    (hsup : ∀ c ∈ supportedCodecs, ∀ p : Int, c.preferredPayloadType = some p →
      p ∉ DynamicPayloadTypes)
    (st st' : List CodecCap × List Int) (mc : CodecCap)
    (hinv : RouterInv st) (h : addMediaCodec ops supportedCodecs st mc = .ok st') :
    RouterInv st' := by
  obtain ⟨hnodup, hsub, hdisj, hpair, hch⟩ := hinv
  rw [addMediaCodec] at h
  cases hval : validateRtpCodecCapabilityT mc with
  | error e => rw [hval] at h; exact absurd h (by simp)
  | ok mc' =>
  rw [hval] at h
  simp only [] at h
  cases hfind : supportedCodecs.find? (fun s =>
      (matchCodecs ops false false mc'.toM s.toM).isSome) with
  | none => rw [hfind] at h; exact absurd h (by simp)
  | some matched =>
  rw [hfind] at h
  simp only [] at h
  have hmatched : matched ∈ supportedCodecs := List.mem_of_find?_eq_some hfind
  -- resolve the payload-type branch into common facts
  have hmain : ∃ (codec0 : CodecCap) (p : Int) (pool1 : List Int),
      codec0.kind = matched.kind ∧ codec0.preferredPayloadType = some p ∧
      pool1.Nodup ∧ pool1 ⊆ DynamicPayloadTypes ∧
      (∀ c ∈ st.1, ∀ q ∈ pool1, ¬(c.preferredPayloadType = some q)) ∧
      p ∉ pool1 ∧
      ((if st.1.any (fun c => c.preferredPayloadType == codec0.preferredPayloadType) then
          Except.error (OrtcError.typeError "duplicated codec.preferredPayloadType")
        else
          let codec := { codec0 with parameters := mergeParameters codec0.parameters mc'.parameters }
          if codec.kind == "video" then
            match takeDynamicPT pool1 with
            | .error e => .error e
            | .ok (pt2, pool2) => .ok (st.1 ++ [codec, rtxCodecFor codec pt2], pool2)
          else .ok (st.1 ++ [codec], pool1)) = .ok st') := by
    cases hpt : mc'.preferredPayloadType with
    | some p =>
      rw [hpt] at h
      simp only [] at h
      refine ⟨{ matched with preferredPayloadType := some p }, p, st.2.erase p,
        rfl, rfl, hnodup.erase p, fun q hq => hsub (List.erase_subset p st.2 hq),
        fun c hc q hq => hdisj c hc q (List.erase_subset p st.2 hq), ?_, h⟩
      intro hm
      exact absurd ((List.Nodup.mem_erase_iff hnodup).mp hm).1 (by simp)
    | none =>
      rw [hpt] at h
      cases hmpt : matched.preferredPayloadType with
      | some q =>
        rw [hmpt] at h
        simp only [] at h
        have hqnot : q ∉ st.2 := fun hm => hsup matched hmatched q hmpt (hsub hm)
        exact ⟨matched, q, st.2, rfl, hmpt, hnodup, hsub, hdisj, hqnot, h⟩
      | none =>
        rw [hmpt] at h
        cases htake : takeDynamicPT st.2 with
        | error e => rw [htake] at h; exact absurd h (by simp)
        | ok ptp =>
          rw [htake] at h
          obtain ⟨pt, pool1⟩ := ptp
          simp only [] at h
          have hshape := takeDynamicPT_ok st.2 pt pool1 htake
          have hnodup1 : (pt :: pool1).Nodup := hshape ▸ hnodup
          refine ⟨{ matched with preferredPayloadType := some pt }, pt, pool1,
            rfl, rfl, (List.pairwise_cons.mp hnodup1).2,
            fun x hx => hsub (hshape ▸ List.mem_cons_of_mem pt hx),
            fun c hc x hx => hdisj c hc x (hshape ▸ List.mem_cons_of_mem pt hx),
            fun hm => (List.pairwise_cons.mp hnodup1).1 pt hm rfl, h⟩
  obtain ⟨codec0, p, pool1, hkind0, hpt0, hnodup1, hsub1, hdisj1, hpnot1, h⟩ := hmain
  by_cases hdup : st.1.any (fun c => c.preferredPayloadType == codec0.preferredPayloadType) = true
  · rw [if_pos hdup] at h
    exact absurd h (by simp)
  · rw [if_neg hdup] at h
    simp only [] at h
    have hnew : ∀ c ∈ st.1, ¬(c.preferredPayloadType = some p) := by
      intro c hc he
      refine hdup ?_
      refine List.any_eq_true.mpr ⟨c, hc, ?_⟩
      rw [he, hpt0]
      exact beq_self_eq_true _
    have hptc : ({ codec0 with parameters := mergeParameters codec0.parameters mc'.parameters } : CodecCap).preferredPayloadType = some p := hpt0
    by_cases hvid : (({ codec0 with parameters := mergeParameters codec0.parameters mc'.parameters } : CodecCap).kind == "video") = true
    · rw [if_pos hvid] at h
      cases htake2 : takeDynamicPT pool1 with
      | error e => rw [htake2] at h; exact absurd h (by simp)
      | ok ptp2 =>
        rw [htake2] at h
        obtain ⟨pt2, pool2⟩ := ptp2
        simp only [Except.ok.injEq] at h
        rw [← h]
        have hshape2 := takeDynamicPT_ok pool1 pt2 pool2 htake2
        exact routerInv_append_video st.1 pool2 _ p pt2 (hshape2 ▸ hnodup1)
          (hshape2 ▸ hsub1) (fun c hc q hq => hdisj1 c hc q (hshape2 ▸ hq)) hpair hch
          hptc (hshape2 ▸ hpnot1) hnew
    · rw [if_neg hvid] at h
      simp only [Except.ok.injEq] at h
      rw [← h]
      exact routerInv_append_media st.1 pool1 _ p hnodup1 hsub1 hdisj1 hpair hch
        hptc hpnot1 hnew

/-- The router codec loop preserves the invariant. -/
theorem routerCodecsLoop_inv (ops : H264Ops) (supportedCodecs : List CodecCap)
    (hsup : ∀ c ∈ supportedCodecs, ∀ p : Int, c.preferredPayloadType = some p →
      p ∉ DynamicPayloadTypes) :
    ∀ (mcs : List CodecCap) (st st' : List CodecCap × List Int), RouterInv st →
      routerCodecsLoop ops supportedCodecs mcs st = .ok st' → RouterInv st' := by
  intro mcs
  induction mcs with
  | nil =>
    intro st st' hinv h
    simp only [routerCodecsLoop, Except.ok.injEq] at h
    exact h ▸ hinv
  | cons mc rest ih =>
    intro st st' hinv h
    rw [routerCodecsLoop] at h
    cases hstep : addMediaCodec ops supportedCodecs st mc with
    | error e => rw [hstep] at h; exact absurd h (by simp)
    | ok st1 =>
      rw [hstep] at h
      exact ih st1 st' (addMediaCodec_inv ops supportedCodecs hsup st st1 mc hinv hstep) h

/-- Codec validation never changes `preferredPayloadType`. -/
theorem validateRtpCodecCapabilityT_pt (c c' : CodecCap)
    (h : validateRtpCodecCapabilityT c = .ok c') :
    c'.preferredPayloadType = c.preferredPayloadType := by
  rw [validateRtpCodecCapabilityT] at h
  split at h
  · exact absurd h (by simp)
  · split at h
    · exact absurd h (by simp)
    · simp only [] at h
      split at h
      · exact absurd h (by simp)
      · cases hfb : validateFbListT c.rtcpFeedback with
        | error e => rw [hfb] at h; exact absurd h (by simp)
        | ok fbs =>
          rw [hfb] at h
          simp only [Except.ok.injEq] at h
          rw [← h]

/-- Every codec of a validated list is the validation of a codec of the
input list. -/
theorem validateCodecListT_mem (l l' : List CodecCap)
    (h : validateCodecListT l = .ok l') :
    ∀ c' ∈ l', ∃ c ∈ l, validateRtpCodecCapabilityT c = .ok c' := by
  induction l generalizing l' with
  | nil =>
    simp only [validateCodecListT, Except.ok.injEq] at h
    rw [← h]
    simp
  | cons c rest ih =>
    rw [validateCodecListT] at h
    cases hv : validateRtpCodecCapabilityT c with
    | error e => rw [hv] at h; exact absurd h (by simp)
    | ok c1 =>
      rw [hv] at h
      cases hr : validateCodecListT rest with
      | error e => rw [hr] at h; exact absurd h (by simp)
      | ok r =>
        rw [hr] at h
        simp only [Except.ok.injEq] at h
        intro c' hc'
        rw [← h] at hc'
        rcases List.mem_cons.mp hc' with he | hm
        · exact ⟨c, List.mem_cons_self _ _, he ▸ hv⟩
        · obtain ⟨c0, hc0, hv0⟩ := ih r (by rw [hr]) c' hm
          exact ⟨c0, List.mem_cons_of_mem _ hc0, hv0⟩

/-- **C1 (amended).** For every media-codec list and supported table none
of whose codecs claims a `preferredPayloadType` from the dynamic pool, a
successful `generateRouterRtpCapabilities` run yields pairwise-distinct
payload types, and the codec list decomposes into chunks in which every
synthesized RTX codec immediately follows its media codec and carries its
payload type as the `apt` parameter. -/
theorem c1_router_unique_pts_amended (ops : H264Ops) (supported : RtpCapabilitiesT)
    (mediaCodecs : List CodecCap) (caps : RtpCapabilitiesT)
    (hsup : ∀ c ∈ supported.codecs.getD [], ∀ p : Int, c.preferredPayloadType = some p →
      p ∉ DynamicPayloadTypes)
    (h : generateRouterRtpCapabilities ops supported mediaCodecs = .ok caps) :
    ∃ cs, caps.codecs = some cs ∧
      cs.Pairwise (fun a b => a.preferredPayloadType ≠ b.preferredPayloadType) ∧
      ∃ chunks : List (List CodecCap), cs = chunks.flatten ∧
        ∀ ch ∈ chunks, RouterChunkOk ch := by
  rw [generateRouterRtpCapabilities] at h
  cases hvs : validateRtpCapabilitiesT supported with
  | error e => rw [hvs] at h; exact absurd h (by simp)
  | ok supported' =>
    rw [hvs] at h
    simp only [] at h
    rw [validateRtpCapabilitiesT] at hvs
    cases hcl : validateCodecListT (supported.codecs.getD []) with
    | error e => rw [hcl] at hvs; exact absurd hvs (by simp)
    | ok cs' =>
      rw [hcl] at hvs
      cases hel : validateExtListT (supported.headerExtensions.getD []) with
      | error e => rw [hel] at hvs; exact absurd hvs (by simp)
      | ok es' =>
        rw [hel] at hvs
        simp only [Except.ok.injEq] at hvs
        have hsup' : ∀ c ∈ cs', ∀ p : Int, c.preferredPayloadType = some p →
            p ∉ DynamicPayloadTypes := by
          intro c hc p hp
          obtain ⟨c0, hc0, hv0⟩ := validateCodecListT_mem _ _ hcl c hc
          exact hsup c0 hc0 p ((validateRtpCodecCapabilityT_pt c0 c hv0) ▸ hp)
        subst hvs
        rw [show (({ codecs := some cs', headerExtensions := some es' } :
          RtpCapabilitiesT).codecs.getD []) = cs' from rfl] at h
        cases hloop : routerCodecsLoop ops cs' mediaCodecs ([], DynamicPayloadTypes) with
        | error e => rw [hloop] at h; exact absurd h (by simp)
        | ok st =>
          rw [hloop] at h
          simp only [Except.ok.injEq] at h
          have hinv0 : RouterInv ([], DynamicPayloadTypes) := by
            refine ⟨by decide, fun q hq => hq, by simp, List.Pairwise.nil, [], rfl, by simp⟩
          have hinv := routerCodecsLoop_inv ops cs' hsup' mediaCodecs _ st hinv0 hloop
          obtain ⟨_, _, _, hpair, chunks, hflat, hok⟩ := hinv
          refine ⟨st.1, ?_, hpair, chunks, hflat, hok⟩
          rw [← h]

/-- **C1, witness.** The amended claim at the concrete VP8 table (whose
only codec has no preferred payload type) and the VP8 request. -/
theorem c1_router_unique_pts_amended_witness :
    ∃ cs, routerCapsVp8.codecs = some cs ∧
      cs.Pairwise (fun a b => a.preferredPayloadType ≠ b.preferredPayloadType) ∧
      ∃ chunks : List (List CodecCap), cs = chunks.flatten ∧
        ∀ ch ∈ chunks, RouterChunkOk ch :=
  c1_router_unique_pts_amended trivialOps supportedVp8 [vp8Req] routerCapsVp8
    (by
      intro c hc p hp
      simp only [supportedVp8, Option.getD_some, List.mem_singleton] at hc
      rw [hc] at hp
      simp [vp8Sup] at hp)
    rfl

/-- Reading back the key just written returns the written value. -/
theorem getField_setField_self (fs : List (String × JSVal)) (k : String) (v : JSVal) :
    getField (setField fs k v) k = some v := by
  induction fs with
  | nil => simp [setField, getField]
  | cons kv rest ih =>
    obtain ⟨k', v'⟩ := kv
    by_cases hk : (k' == k) = true
    · rw [setField, if_pos hk, getField, if_pos hk]
    · rw [setField, if_neg hk, getField, if_neg hk]
      exact ih

/-- Writing one key leaves the others unchanged. -/
theorem getField_setField_ne (fs : List (String × JSVal)) (k k2 : String) (v : JSVal)
    (h : ¬(k2 = k)) : getField (setField fs k v) k2 = getField fs k2 := by
  induction fs with
  | nil =>
    rw [setField, getField, getField]
    have : ¬(k == k2) = true := by
      simp only [beq_iff_eq]
      exact fun he => h he.symm
    rw [if_neg this]
    rfl
  | cons kv rest ih =>
    obtain ⟨k', v'⟩ := kv
    by_cases hk : (k' == k) = true
    · rw [setField, if_pos hk, getField, getField]
      have hk2 : ¬(k' == k2) = true := by
        simp only [beq_iff_eq] at hk ⊢
        rw [hk]
        exact fun he => h he.symm
      rw [if_neg hk2, if_neg hk2]
    · rw [setField, if_neg hk, getField, getField]
      by_cases hk2 : (k' == k2) = true
      · rw [if_pos hk2, if_pos hk2]
      · rw [if_neg hk2, if_neg hk2]
        exact ih

/-- Overwriting a key twice equals writing it once. -/
theorem setField_setField (fs : List (String × JSVal)) (k : String) (v w : JSVal) :
    setField (setField fs k v) k w = setField fs k w := by
  induction fs with
  | nil => simp [setField]
  | cons kv rest ih =>
    obtain ⟨k', v'⟩ := kv
    by_cases hk : (k' == k) = true
    · rw [setField, if_pos hk, setField, if_pos hk, setField, if_pos hk]
    · rw [setField, if_neg hk, setField, if_neg hk, setField, if_neg hk, ih]

/-- `validateRtcpFeedback` is idempotent. -/
theorem validateRtcpFeedbackRaw_idem (fb fb' : JSVal)
    (h : validateRtcpFeedbackRaw fb = .ok fb') :
    validateRtcpFeedbackRaw fb' = .ok fb' := by
  cases fb with
  | obj fs =>
    rw [validateRtcpFeedbackRaw] at h
    by_cases ht : (!(truthy ((getField fs "type").getD .undefined)) ||
        !(isStrV ((getField fs "type").getD .undefined))) = true
    · rw [if_pos ht] at h; exact absurd h (by simp)
    · rw [if_neg ht] at h
      by_cases hp : (!(truthy ((getField fs "parameter").getD .undefined)) ||
          !(isStrV ((getField fs "parameter").getD .undefined))) = true
      · rw [if_pos hp] at h
        simp only [Except.ok.injEq] at h
        rw [← h]
        rw [validateRtcpFeedbackRaw,
          getField_setField_ne fs "parameter" "type" (.str "") (by decide), if_neg ht,
          getField_setField_self]
        rw [if_pos (by simp [truthy]), setField_setField]
      · rw [if_neg hp] at h
        simp only [Except.ok.injEq] at h
        rw [← h]
        rw [validateRtcpFeedbackRaw, if_neg ht, if_neg hp]
  | undefined => exact absurd h (by simp [validateRtcpFeedbackRaw])
  | null => exact absurd h (by simp [validateRtcpFeedbackRaw])
  | bool b => exact absurd h (by simp [validateRtcpFeedbackRaw])
  | num n => exact absurd h (by simp [validateRtcpFeedbackRaw])
  | str s => exact absurd h (by simp [validateRtcpFeedbackRaw])
  | arr xs => exact absurd h (by simp [validateRtcpFeedbackRaw])

/-- The `codec.parameters` key loop is idempotent (object form). -/
theorem validateParamEntriesRaw_idem (fs fs' : List (String × JSVal))
    (h : validateParamEntriesRaw fs = .ok fs') :
    validateParamEntriesRaw fs' = .ok fs' := by
  induction fs generalizing fs' with
  | nil =>
    simp only [validateParamEntriesRaw, Except.ok.injEq] at h
    rw [← h]
    rfl
  | cons kv rest ih =>
    obtain ⟨k, v⟩ := kv
    cases v with
    | undefined =>
      rw [validateParamEntriesRaw] at h
      by_cases hk : (k == "apt") = true
      · rw [if_pos hk] at h; exact absurd h (by simp)
      · rw [if_neg hk] at h
        cases hr : validateParamEntriesRaw rest with
        | error e => rw [hr] at h; exact absurd h (by simp)
        | ok r =>
          rw [hr] at h
          simp only [Except.ok.injEq] at h
          rw [← h, validateParamEntriesRaw, if_neg hk, ih r hr]
    | str s =>
      rw [validateParamEntriesRaw] at h
      by_cases hk : (k == "apt") = true
      · rw [if_pos hk] at h; exact absurd h (by simp)
      · rw [if_neg hk] at h
        cases hr : validateParamEntriesRaw rest with
        | error e => rw [hr] at h; exact absurd h (by simp)
        | ok r =>
          rw [hr] at h
          simp only [Except.ok.injEq] at h
          rw [← h, validateParamEntriesRaw, if_neg hk, ih r hr]
    | num n =>
      rw [validateParamEntriesRaw] at h
      cases hr : validateParamEntriesRaw rest with
      | error e => rw [hr] at h; exact absurd h (by simp)
      | ok r =>
        rw [hr] at h
        simp only [Except.ok.injEq] at h
        rw [← h, validateParamEntriesRaw, ih r hr]
    | null => exact absurd h (by simp [validateParamEntriesRaw])
    | bool b => exact absurd h (by simp [validateParamEntriesRaw])
    | arr xs => exact absurd h (by simp [validateParamEntriesRaw])
    | obj o => exact absurd h (by simp [validateParamEntriesRaw])

/-- The `codec.parameters` key loop is idempotent (array form). -/
theorem validateParamArrRaw_idem (xs xs' : List JSVal)
    (h : validateParamArrRaw xs = .ok xs') :
    validateParamArrRaw xs' = .ok xs' := by
  induction xs generalizing xs' with
  | nil =>
    simp only [validateParamArrRaw, Except.ok.injEq] at h
    rw [← h]
    rfl
  | cons v rest ih =>
    cases v with
    | undefined =>
      rw [validateParamArrRaw] at h
      cases hr : validateParamArrRaw rest with
      | error e => rw [hr] at h; exact absurd h (by simp)
      | ok r =>
        rw [hr] at h
        simp only [Except.ok.injEq] at h
        rw [← h, validateParamArrRaw, ih r hr]
    | str s =>
      rw [validateParamArrRaw] at h
      cases hr : validateParamArrRaw rest with
      | error e => rw [hr] at h; exact absurd h (by simp)
      | ok r =>
        rw [hr] at h
        simp only [Except.ok.injEq] at h
        rw [← h, validateParamArrRaw, ih r hr]
    | num n =>
      rw [validateParamArrRaw] at h
      cases hr : validateParamArrRaw rest with
      | error e => rw [hr] at h; exact absurd h (by simp)
      | ok r =>
        rw [hr] at h
        simp only [Except.ok.injEq] at h
        rw [← h, validateParamArrRaw, ih r hr]
    | null => exact absurd h (by simp [validateParamArrRaw])
    | bool b => exact absurd h (by simp [validateParamArrRaw])
    | arr ys => exact absurd h (by simp [validateParamArrRaw])
    | obj o => exact absurd h (by simp [validateParamArrRaw])

/-- `codec.parameters` normalization is idempotent. -/
theorem validateParametersRaw_idem (v v' : JSVal)
    (h : validateParametersRaw v = .ok v') :
    validateParametersRaw v' = .ok v' := by
  cases v with
  | obj fs =>
    rw [validateParametersRaw] at h
    cases hfs : validateParamEntriesRaw fs with
    | error e => rw [hfs] at h; exact absurd h (by simp)
    | ok fs2 =>
      rw [hfs] at h
      simp only [Except.ok.injEq] at h
      rw [← h, validateParametersRaw, validateParamEntriesRaw_idem fs fs2 hfs]
  | arr xs =>
    rw [validateParametersRaw] at h
    cases hxs : validateParamArrRaw xs with
    | error e => rw [hxs] at h; exact absurd h (by simp)
    | ok xs2 =>
      rw [hxs] at h
      simp only [Except.ok.injEq] at h
      rw [← h, validateParametersRaw, validateParamArrRaw_idem xs xs2 hxs]
  | undefined => simp [validateParametersRaw] at h; rw [← h]; rfl
  | null => simp [validateParametersRaw] at h; rw [← h]; rfl
  | bool b => simp [validateParametersRaw] at h; rw [← h]; rfl
  | num n => simp [validateParametersRaw] at h; rw [← h]; rfl
  | str s => simp [validateParametersRaw] at h; rw [← h]; rfl

/-- The `codec.rtcpFeedback` entry loop is idempotent. -/
theorem validateFbEntriesRaw_idem (xs xs' : List JSVal)
    (h : validateFbEntriesRaw xs = .ok xs') :
    validateFbEntriesRaw xs' = .ok xs' := by
  induction xs generalizing xs' with
  | nil =>
    simp only [validateFbEntriesRaw, Except.ok.injEq] at h
    rw [← h]
    rfl
  | cons fb rest ih =>
    rw [validateFbEntriesRaw] at h
    cases hfb : validateRtcpFeedbackRaw fb with
    | error e => rw [hfb] at h; exact absurd h (by simp)
    | ok fb1 =>
      rw [hfb] at h
      cases hr : validateFbEntriesRaw rest with
      | error e => rw [hr] at h; exact absurd h (by simp)
      | ok r =>
        rw [hr] at h
        simp only [Except.ok.injEq] at h
        rw [← h, validateFbEntriesRaw, validateRtcpFeedbackRaw_idem fb fb1 hfb, ih r hr]

/-- `codec.rtcpFeedback` normalization is idempotent. -/
theorem validateRtcpFeedbackListRaw_idem (v v' : JSVal)
    (h : validateRtcpFeedbackListRaw v = .ok v') :
    validateRtcpFeedbackListRaw v' = .ok v' := by
  cases v with
  | arr xs =>
    rw [validateRtcpFeedbackListRaw] at h
    cases hxs : validateFbEntriesRaw xs with
    | error e => rw [hxs] at h; exact absurd h (by simp)
    | ok ys =>
      rw [hxs] at h
      simp only [Except.ok.injEq] at h
      rw [← h, validateRtcpFeedbackListRaw, validateFbEntriesRaw_idem xs ys hxs]
  | undefined => simp [validateRtcpFeedbackListRaw] at h; rw [← h]; rfl
  | null => simp [validateRtcpFeedbackListRaw] at h; rw [← h]; rfl
  | bool b => simp [validateRtcpFeedbackListRaw] at h; rw [← h]; rfl
  | num n => simp [validateRtcpFeedbackListRaw] at h; rw [← h]; rfl
  | str s => simp [validateRtcpFeedbackListRaw] at h; rw [← h]; rfl
  | obj fs => simp [validateRtcpFeedbackListRaw] at h; rw [← h]; rfl

/-- `validateRtpCodecCapability` is idempotent. -/
theorem validateRtpCodecCapabilityRaw_idem (c c' : RawCodec)
    (h : validateRtpCodecCapabilityRaw c = .ok c') :
    validateRtpCodecCapabilityRaw c' = .ok c' := by
  rw [validateRtpCodecCapabilityRaw] at h
  cases hmt : c.mimeType with
  | str s =>
    rw [hmt] at h
    simp only [] at h
    by_cases hs : (s == "") = true
    · rw [if_pos hs] at h; exact absurd h (by simp)
    · rw [if_neg hs] at h
      cases hkind : mimeTypeKind s with
      | none => rw [hkind] at h; exact absurd h (by simp)
      | some kind =>
        rw [hkind] at h
        simp only [] at h
        by_cases hptc : (truthy c.preferredPayloadType && !(isNumV c.preferredPayloadType)) = true
        · rw [if_pos hptc] at h; exact absurd h (by simp)
        · rw [if_neg hptc] at h
          by_cases hclk : (!(isNumV c.clockRate)) = true
          · rw [if_pos hclk] at h; exact absurd h (by simp)
          · rw [if_neg hclk] at h
            cases hps : validateParametersRaw c.parameters with
            | error e => rw [hps] at h; exact absurd h (by simp)
            | ok ps =>
              rw [hps] at h
              cases hfbs : validateRtcpFeedbackListRaw c.rtcpFeedback with
              | error e => rw [hfbs] at h; exact absurd h (by simp)
              | ok fbs =>
                rw [hfbs] at h
                simp only [Except.ok.injEq] at h
                rw [← h]
                rw [validateRtpCodecCapabilityRaw]
                simp only [hmt]
                rw [if_neg hs, hkind]
                simp only [hptc, hclk]
                rw [if_neg (show ¬(false = true) by decide),
                  if_neg (show ¬(false = true) by decide),
                  validateParametersRaw_idem c.parameters ps hps,
                  validateRtcpFeedbackListRaw_idem c.rtcpFeedback fbs hfbs]
                by_cases hka : (kind == "audio") = true
                · rw [if_pos hka, if_pos hka]
                  by_cases hnc : isNumV c.channels = true
                  · rw [if_pos hnc, if_pos hnc]
                  · rw [if_neg hnc, if_pos (by rfl : isNumV (JSVal.num 1) = true)]
                · rw [if_neg hka, if_neg hka]
  | undefined => rw [hmt] at h; exact absurd h (by simp)
  | null => rw [hmt] at h; exact absurd h (by simp)
  | bool b => rw [hmt] at h; exact absurd h (by simp)
  | num n => rw [hmt] at h; exact absurd h (by simp)
  | arr xs => rw [hmt] at h; exact absurd h (by simp)
  | obj fs => rw [hmt] at h; exact absurd h (by simp)

/-- `validateRtpHeaderExtension` is idempotent. -/
theorem validateRtpHeaderExtensionRaw_idem (e e' : RawExt)
    (h : validateRtpHeaderExtensionRaw e = .ok e') :
    validateRtpHeaderExtensionRaw e' = .ok e' := by
  rw [validateRtpHeaderExtensionRaw] at h
  by_cases hk : (!(isExtKind e.kind)) = true
  · rw [if_pos hk] at h; exact absurd h (by simp)
  · rw [if_neg hk] at h
    cases hu : e.uri with
    | str s =>
      rw [hu] at h
      simp only [] at h
      by_cases hs : (s == "") = true
      · rw [if_pos hs] at h; exact absurd h (by simp)
      · rw [if_neg hs] at h
        by_cases hid : (!(isNumV e.preferredId)) = true
        · rw [if_pos hid] at h; exact absurd h (by simp)
        · rw [if_neg hid] at h
          by_cases hpe : (truthy e.preferredEncrypt && !(isBoolV e.preferredEncrypt)) = true
          · rw [if_pos hpe] at h; exact absurd h (by simp)
          · rw [if_neg hpe] at h
            by_cases hd : (truthy e.direction && !(isStrV e.direction)) = true
            · rw [if_pos hd] at h; exact absurd h (by simp)
            · rw [if_neg hd] at h
              simp only [Except.ok.injEq] at h
              rw [← h]
              rw [validateRtpHeaderExtensionRaw]
              simp only [hu]
              rw [if_neg hk, if_neg hs, if_neg hid]
              by_cases htr : truthy e.preferredEncrypt = true
              · have hb : isBoolV e.preferredEncrypt = true := by
                  cases hx : isBoolV e.preferredEncrypt
                  · exact absurd (by rw [htr, hx]; rfl) hpe
                  · rfl
                rw [if_pos htr]
                by_cases htd : truthy e.direction = true
                · have hsd : isStrV e.direction = true := by
                    cases hx : isStrV e.direction
                    · exact absurd (by rw [htd, hx]; rfl) hd
                    · rfl
                  rw [if_pos htd]
                  rw [if_neg (by rw [htr, hb]; simp), if_neg (by rw [htd, hsd]; simp),
                    if_pos htr, if_pos htd]
                · rw [if_neg htd]
                  rw [if_neg (by rw [htr, hb]; simp),
                    if_neg (by simp [truthy, isStrV]),
                    if_pos htr, if_pos (by simp [truthy])]
              · rw [if_neg htr]
                by_cases htd : truthy e.direction = true
                · have hsd : isStrV e.direction = true := by
                    cases hx : isStrV e.direction
                    · exact absurd (by rw [htd, hx]; rfl) hd
                    · rfl
                  rw [if_pos htd]
                  rw [if_neg (by simp [truthy, isBoolV]), if_neg (by rw [htd, hsd]; simp),
                    if_neg (by simp [truthy]), if_pos htd]
                · rw [if_neg htd]
                  rw [if_neg (by simp [truthy, isBoolV]), if_neg (by simp [truthy, isStrV]),
                    if_neg (by simp [truthy]), if_pos (by simp [truthy])]
    | undefined => rw [hu] at h; exact absurd h (by simp)
    | null => rw [hu] at h; exact absurd h (by simp)
    | bool b => rw [hu] at h; exact absurd h (by simp)
    | num n => rw [hu] at h; exact absurd h (by simp)
    | arr xs => rw [hu] at h; exact absurd h (by simp)
    | obj fs => rw [hu] at h; exact absurd h (by simp)

/-- The codec list loop of `validateRtpCapabilities` is idempotent. -/
theorem validateCodecListRaw_idem (l l' : List RawCodec)
    (h : validateCodecListRaw l = .ok l') :
    validateCodecListRaw l' = .ok l' := by
  induction l generalizing l' with
  | nil =>
    simp only [validateCodecListRaw, Except.ok.injEq] at h
    rw [← h]
    rfl
  | cons c rest ih =>
    rw [validateCodecListRaw] at h
    cases hv : validateRtpCodecCapabilityRaw c with
    | error e => rw [hv] at h; exact absurd h (by simp)
    | ok c1 =>
      rw [hv] at h
      cases hr : validateCodecListRaw rest with
      | error e => rw [hr] at h; exact absurd h (by simp)
      | ok r =>
        rw [hr] at h
        simp only [Except.ok.injEq] at h
        rw [← h, validateCodecListRaw, validateRtpCodecCapabilityRaw_idem c c1 hv, ih r hr]

/-- The header-extension list loop of `validateRtpCapabilities` is
idempotent. -/
theorem validateExtListRaw_idem (l l' : List RawExt)
    (h : validateExtListRaw l = .ok l') :
    validateExtListRaw l' = .ok l' := by
  induction l generalizing l' with
  | nil =>
    simp only [validateExtListRaw, Except.ok.injEq] at h
    rw [← h]
    rfl
  | cons e rest ih =>
    rw [validateExtListRaw] at h
    cases hv : validateRtpHeaderExtensionRaw e with
    | error er => rw [hv] at h; exact absurd h (by simp)
    | ok e1 =>
      rw [hv] at h
      cases hr : validateExtListRaw rest with
      | error er => rw [hr] at h; exact absurd h (by simp)
      | ok r =>
        rw [hr] at h
        simp only [Except.ok.injEq] at h
        rw [← h, validateExtListRaw, validateRtpHeaderExtensionRaw_idem e e1 hv, ih r hr]

/-- **C4.** `validateRtpCapabilities` is idempotent: whenever it succeeds,
applying it a second time to the normalized result succeeds and leaves the
structure unchanged. -/
theorem c4_validate_capabilities_idem (caps caps' : RawCaps)
    (h : validateRtpCapabilitiesRaw caps = .ok caps') :
    validateRtpCapabilitiesRaw caps' = .ok caps' := by
  rw [validateRtpCapabilitiesRaw] at h
  cases hc : caps.codecs with
  | notArrayF => rw [hc] at h; exact absurd h (by simp)
  | missingF =>
    rw [hc] at h
    simp only [] at h
    cases hcl : validateCodecListRaw [] with
    | error e => rw [hcl] at h; exact absurd h (by simp)
    | ok cs' =>
      rw [hcl] at h
      cases he : caps.headerExtensions with
      | notArrayF => rw [he] at h; exact absurd h (by simp)
      | missingF =>
        rw [he] at h
        simp only [] at h
        cases hel : validateExtListRaw [] with
        | error e => rw [hel] at h; exact absurd h (by simp)
        | ok es' =>
          rw [hel] at h
          simp only [Except.ok.injEq] at h
          rw [← h, validateRtpCapabilitiesRaw]
          simp only []
          rw [validateCodecListRaw_idem [] cs' hcl, validateExtListRaw_idem [] es' hel]
      | arrF es =>
        rw [he] at h
        simp only [] at h
        cases hel : validateExtListRaw es with
        | error e => rw [hel] at h; exact absurd h (by simp)
        | ok es' =>
          rw [hel] at h
          simp only [Except.ok.injEq] at h
          rw [← h, validateRtpCapabilitiesRaw]
          simp only []
          rw [validateCodecListRaw_idem [] cs' hcl, validateExtListRaw_idem es es' hel]
  | arrF cs =>
    rw [hc] at h
    simp only [] at h
    cases hcl : validateCodecListRaw cs with
    | error e => rw [hcl] at h; exact absurd h (by simp)
    | ok cs' =>
      rw [hcl] at h
      cases he : caps.headerExtensions with
      | notArrayF => rw [he] at h; exact absurd h (by simp)
      | missingF =>
        rw [he] at h
        simp only [] at h
        cases hel : validateExtListRaw [] with
        | error e => rw [hel] at h; exact absurd h (by simp)
        | ok es' =>
          rw [hel] at h
          simp only [Except.ok.injEq] at h
          rw [← h, validateRtpCapabilitiesRaw]
          simp only []
          rw [validateCodecListRaw_idem cs cs' hcl, validateExtListRaw_idem [] es' hel]
      | arrF es =>
        rw [he] at h
        simp only [] at h
        cases hel : validateExtListRaw es with
        | error e => rw [hel] at h; exact absurd h (by simp)
        | ok es' =>
          rw [hel] at h
          simp only [Except.ok.injEq] at h
          rw [← h, validateRtpCapabilitiesRaw]
          simp only []
          rw [validateCodecListRaw_idem cs cs' hcl, validateExtListRaw_idem es es' hel]

/-- **C4, witness.** A capability set whose codec and extension both need
default-filling normalizes in one pass and is a fixed point of a second
pass. -/
theorem c4_validate_capabilities_idem_witness :
    validateRtpCapabilitiesRaw rawCapsW' = .ok rawCapsW' :=
  c4_validate_capabilities_idem rawCapsW rawCapsW' rfl
